import Mathlib

set_option maxHeartbeats 1000000

/-!
# SumZero rules engine: a shallow embedding with verified properties

This file embeds the core rules/state engine of the SumZero game
(geometry transforms, piece catalog, board, draft economy, placement
engine, pattern recognizer, scoring service, and the game orchestrator)
as executable Lean definitions translated from the JavaScript source,
and proves or refutes the specification's claims about them.

Conventions of the embedding:
* JavaScript numbers holding coordinates or counts are `Int`
  (coordinates may be negative mid-transform); sizes are `Nat`.
* Pattern point values are `ℚ` because the source computes fractional
  fallback values (`width * height * 1.5`).
* Fallible operations (`throw` in the source) return `Except String`.
* `Date.now()` is modelled as an explicit `now : Int` argument threaded
  into every operation that reads the clock; all clock reads within a
  single operation are modelled as returning the same instant.
* Presentational string fields interpolated from state (end reasons,
  statistics summaries, player colors) are not modelled; they are
  derived display data and no claim mentions them.
-/

namespace SumZero

/-- A cell: `(x, y)` integer grid coordinates. -/
abbrev Cell := Int × Int

/-- Transform record `{rot, flipX}`. `rot` is an arbitrary integer so that
malformed rotations (e.g. 45) can be expressed, as in the source where it
is an arbitrary JS number. -/
structure Transform where
  rot : Int
  flipX : Bool
deriving DecidableEq, Repr

/-- Number of times the JS loop `for (let i = 0; i < rot / 90; i++)` runs:
`⌈rot/90⌉` for positive `rot`, `0` otherwise. For `rot = 45` this is 1,
so a 45° "rotation" silently acts as one 90° rotation. -/
def rotIterations (rot : Int) : Nat :=
  if rot ≤ 0 then 0 else ((rot - 1).toNat / 90) + 1

/-- Minimum of a list of integers (`Math.min(...xs)`), defaulting to 0 on
the empty list, which the source never passes (shapes have 4 or 5 cells). -/
def listMin : List Int → Int
  | [] => 0
  | x :: xs => xs.foldl min x

/-- Maximum of a list of integers (`Math.max(...xs)`), defaulting to -1 on
the empty list, which the source never passes. -/
def listMax : List Int → Int
  | [] => -1
  | x :: xs => xs.foldl max x

/-- Horizontal flip around the Y axis: `[dx, dy] → [-dx, dy]`. -/
def flipC (c : Cell) : Cell := (-c.1, c.2)

/-- One 90° counter-clockwise rotation step: `[dx, dy] → [-dy, dx]`. -/
def rotC (c : Cell) : Cell := (-c.2, c.1)

/-- Translation of a cell by a vector. -/
def translateC (d : Cell) (c : Cell) : Cell := (c.1 + d.1, c.2 + d.2)

/-- Minimum x coordinate of a list of cells. -/
def minX (l : List Cell) : Int := listMin (l.map Prod.fst)

/-- Minimum y coordinate of a list of cells. -/
def minY (l : List Cell) : Int := listMin (l.map Prod.snd)

/-- Normalization step of `applyTransform`: translate so that the minimum
x and minimum y become 0. -/
def normalizeCells (l : List Cell) : List Cell :=
  l.map (translateC (-(minX l), -(minY l)))

/-- `applyTransform(relCells, transform)`: flip if `flipX`, rotate
`rot/90` times (loop granularity as in the JS source), then normalize. -/
def applyTransform (relCells : List Cell) (t : Transform) : List Cell :=
  let flipped := if t.flipX then relCells.map flipC else relCells
  let rotated := (List.map rotC)^[rotIterations t.rot] flipped
  normalizeCells rotated

/-- `calculateAbsCells(transformedCells, anchor)`. -/
def calculateAbsCells (transformedCells : List Cell) (anchor : Cell) : List Cell :=
  transformedCells.map (fun c => (anchor.1 + c.1, anchor.2 + c.2))

/-- Bounding box of transformed cells: `{width: max dx + 1, height: max dy + 1}`. -/
structure Bounds where
  width : Int
  height : Int
deriving DecidableEq, Repr

/-- `getBounds(transformedCells)`. -/
def getBounds (transformedCells : List Cell) : Bounds :=
  { width := listMax (transformedCells.map Prod.fst) + 1
    height := listMax (transformedCells.map Prod.snd) + 1 }

/-- `validateTransform(transform)`: rotation must be one of 0/90/180/270.
(The source additionally requires `flipX` to be strictly boolean; the
embedding's `flipX : Bool` makes that check vacuously true.) -/
def validateTransform (t : Transform) : Bool :=
  t.rot == 0 || t.rot == 90 || t.rot == 180 || t.rot == 270

/-! ## Piece catalog (`PieceDefinitions.js`, `PieceLibrary.js`) -/

/-- The 19 canonical piece identifiers (7 tetrominoes, 12 pentominoes). -/
inductive PieceId where
  | I4 | O4 | T4 | S4 | Z4 | L4 | J4
  | I5 | L5 | P5 | N5 | T5 | U5 | V5 | W5 | X5 | Y5 | Z5 | F5
deriving DecidableEq, Repr

/-- `relCells` of each catalog piece, verbatim from `PieceDefinitions.js`. -/
def relCells : PieceId → List Cell
  | .I4 => [(0,0),(1,0),(2,0),(3,0)]
  | .O4 => [(0,0),(1,0),(0,1),(1,1)]
  | .T4 => [(0,0),(1,0),(2,0),(1,1)]
  | .S4 => [(1,0),(2,0),(0,1),(1,1)]
  | .Z4 => [(0,0),(1,0),(1,1),(2,1)]
  | .L4 => [(0,0),(0,1),(0,2),(1,2)]
  | .J4 => [(1,0),(1,1),(1,2),(0,2)]
  | .I5 => [(0,0),(1,0),(2,0),(3,0),(4,0)]
  | .L5 => [(0,0),(0,1),(0,2),(0,3),(1,3)]
  | .P5 => [(0,0),(1,0),(0,1),(1,1),(0,2)]
  | .N5 => [(0,0),(1,0),(1,1),(2,1),(2,2)]
  | .T5 => [(0,0),(1,0),(2,0),(1,1),(1,2)]
  | .U5 => [(0,0),(0,1),(1,1),(2,1),(2,0)]
  | .V5 => [(0,0),(0,1),(0,2),(1,2),(2,2)]
  | .W5 => [(0,0),(1,0),(1,1),(2,1),(2,2)]
  | .X5 => [(1,0),(0,1),(1,1),(2,1),(1,2)]
  | .Y5 => [(0,1),(1,0),(1,1),(1,2),(1,3)]
  | .Z5 => [(0,0),(1,0),(1,1),(2,1),(2,2)]
  | .F5 => [(1,0),(0,1),(1,1),(1,2),(2,2)]

/-- `size` (= cell count) of each piece; `cost` equals `size`. -/
def pieceSize : PieceId → Nat
  | .I4 | .O4 | .T4 | .S4 | .Z4 | .L4 | .J4 => 4
  | _ => 5

/-- `getPieceCost(pieceId)`. With the typed `PieceId` the unknown-piece
fallback (cost 0) of the source is unreachable. -/
def getPieceCost (p : PieceId) : Int := pieceSize p

/-- Cell comparison used by the transform-cache dedupe key:
`(a, b) => a[0] - b[0] || a[1] - b[1]` (lexicographic by x then y). -/
def cellLe (a b : Cell) : Bool :=
  a.1 < b.1 || (a.1 == b.1 && a.2 ≤ b.2)

/-- Sorted insertion under a boolean order. -/
def insertLe (le : α → α → Bool) (a : α) : List α → List α
  | [] => [a]
  | b :: bs => if le a b then a :: b :: bs else b :: insertLe le a bs

/-- Stable sort under a boolean total preorder. JS `Array.prototype.sort`
is stable (ES2019), and a total preorder has exactly one stable sorted
permutation, so this insertion sort computes the same list the source's
sort does. -/
def sortByLe (le : α → α → Bool) : List α → List α
  | [] => []
  | a :: as => insertLe le a (sortByLe le as)

/-- A cached orientation: the transform plus the (sorted, see below) cells. -/
structure Orientation where
  transform : Transform
  cells : List Cell
deriving DecidableEq, Repr

/-- `computeUniqueTransforms(relCells)`: apply all 8 isometries; dedupe by
the cell list sorted by x then y. The JS `transformed.sort(...)` mutates
the array before it is stored, so the cached cells are the sorted ones. -/
def computeUniqueTransforms (cells : List Cell) : List Orientation :=
  let step := fun (acc : List (List Cell) × List Orientation) (t : Transform) =>
    let sortedCells := sortByLe cellLe (applyTransform cells t)
    if acc.1.contains sortedCells then acc
    else (acc.1 ++ [sortedCells], acc.2 ++ [⟨t, sortedCells⟩])
  let transforms :=
    ([0, 90, 180, 270] : List Int).flatMap (fun rot =>
      ([false, true] : List Bool).map (fun fx => Transform.mk rot fx))
  (transforms.foldl step ([], [])).2

/-- `pieceLibrary.getUniqueTransforms(pieceId)` (the source precomputes
these once; the embedding recomputes, which is observationally equal). -/
def getUniqueTransforms (p : PieceId) : List Orientation :=
  computeUniqueTransforms (relCells p)

/-! ## Board (`Board.js`) -/

/-- Board record: dimensions plus a row-major grid of cell states
(0 = empty, 1/2 = players, -1 = unusable). -/
structure Board where
  rows : Nat
  cols : Nat
  grid : List (List Int)
deriving DecidableEq, Repr

/-- `isInBounds(board, x, y)`. -/
def isInBounds (b : Board) (x y : Int) : Bool :=
  0 ≤ x && x < (b.cols : Int) && 0 ≤ y && y < (b.rows : Int)

/-- `board.grid[y][x]` (callers access only after a bounds check, as in
the source; the 0 default is never observed on in-bounds accesses of a
well-formed grid). -/
def gridAt (b : Board) (x y : Int) : Int :=
  (b.grid.getD y.toNat []).getD x.toNat 0

/-- `setCell(board, x, y, value)`: immutable single-cell update. -/
def setCell (b : Board) (x y : Int) (value : Int) : Except String Board :=
  if ¬ isInBounds b x y then .error "Invalid coordinates"
  else .ok { b with
    grid := b.grid.mapIdx (fun ri row =>
      if (ri : Int) == y then
        row.mapIdx (fun ci cell => if (ci : Int) == x then value else cell)
      else row) }

/-- `areCellsEmpty(board, cells)`. -/
def areCellsEmpty (b : Board) (cells : List Cell) : Bool :=
  cells.all (fun c => isInBounds b c.1 c.2 && gridAt b c.1 c.2 == 0)

/-- Loop body of `placePiece` (Board.js): bounds and occupancy are checked
against the ORIGINAL board while updates accumulate on the new board. -/
def placeLoop (b : Board) (playerId : Int) : List Cell → Board → Except String Board
  | [], nb => .ok nb
  | c :: rest, nb =>
    if ¬ isInBounds b c.1 c.2 then .error "Cell is out of bounds"
    else if gridAt b c.1 c.2 ≠ 0 then .error "Cell is already occupied"
    else match setCell nb c.1 c.2 playerId with
      | .error e => .error e
      | .ok nb' => placeLoop b playerId rest nb'

/-- `placePiece(board, cells, playerId)` of `Board.js`. -/
def placePieceBoard (b : Board) (cells : List Cell) (playerId : Int) : Except String Board :=
  placeLoop b playerId cells b

/-! ## Pattern recognizer (`PatternRecognizer.js`) -/

/-- A recognized pattern. Fields follow the source's pattern objects;
shape-specific display fields (`direction`, `length`, `width`, ...) are
carried as options since the source's records are duck-typed. -/
structure Pattern where
  id : String
  ptype : String
  points : ℚ
  cells : List Cell
  priority : ℚ
  direction : Option String := none
  len : Option Nat := none
  width : Option Nat := none
  height : Option Nat := none
  subtype : Option String := none
  size : Option Nat := none
  edge : Option String := none
deriving DecidableEq, Repr

/-- `PATTERN_DEFINITIONS` point lookup. -/
def patternDefPoints : String → Option ℚ
  | "SHORT_LINE_4" => some 5
  | "SHORT_LINE_5" => some 6
  | "MEDIUM_LINE_6" => some 8
  | "MEDIUM_LINE_7" => some 9
  | "DIAGONAL_CHAIN_4" => some 6
  | "DIAGONAL_CHAIN_5" => some 7
  | "SMALL_RECTANGLE_2x3" => some 7
  | "SMALL_RECTANGLE_3x2" => some 7
  | "MINI_SQUARE_3x3" => some 10
  | "CORNER_CONTROL" => some 12
  | "EDGE_CONTROL" => some 15
  | "LONG_LINE_8" => some 15
  | "LONG_LINE_9" => some 18
  | "LONG_LINE_10" => some 20
  | "FULL_ROW" => some 25
  | "FULL_COLUMN" => some 25
  | "LARGE_RECTANGLE_3x4" => some 18
  | "LARGE_RECTANGLE_4x3" => some 18
  | "LARGE_RECTANGLE_2x6" => some 16
  | "LARGE_SQUARE_4x4" => some 22
  | "LARGE_SQUARE_5x5" => some 30
  | "CENTER_DOMINANCE_4x4" => some 20
  | "CENTER_DOMINANCE_5x5" => some 25
  | "ENCLOSURE" => some 20
  | _ => none

/-- `createLinePattern(cells, length, direction)` of the recognizer
(`this.board` passed explicitly as `rows`/`cols`). -/
def createLinePattern (rows cols : Nat) (cells : List Cell) (length : Nat)
    (direction : String) : Pattern :=
  if direction == "diagonal" then
    let patternId :=
      if length == 4 then "DIAGONAL_CHAIN_4"
      else if length == 5 then "DIAGONAL_CHAIN_5"
      else "DIAGONAL_CHAIN_LONG"
    { id := patternId, ptype := "line", direction := some direction,
      len := some length,
      points := (patternDefPoints patternId).getD ((length * 2 : Nat) : ℚ),
      cells := cells, priority := length }
  else
    let patternId0 :=
      if length == 4 then "SHORT_LINE_4"
      else if length == 5 then "SHORT_LINE_5"
      else if length == 6 then "MEDIUM_LINE_6"
      else if length == 7 then "MEDIUM_LINE_7"
      else if length == 8 then "LONG_LINE_8"
      else if length == 9 then "LONG_LINE_9"
      else if length == 10 then "LONG_LINE_10"
      else "EXTRA_LONG_LINE"
    let patternId :=
      if direction == "horizontal" && length == cols then "FULL_ROW"
      else if direction == "vertical" && length == rows then "FULL_COLUMN"
      else patternId0
    { id := patternId, ptype := "line", direction := some direction,
      len := some length,
      points := (patternDefPoints patternId).getD ((min 30 (length * 3) : Nat) : ℚ),
      cells := cells, priority := length }

/-- One run walk of the `while (cellSet.has(...))` loops. The fuel bound
(`cellSet.length + 1`) dominates any run length, so the walk always stops
at the first non-member exactly as the source loop does. -/
def walkRun (cellSet : List Cell) (step : Cell → Cell) : Nat → Cell → List Cell
  | 0, _ => []
  | fuel + 1, c =>
    if cellSet.contains c then c :: walkRun cellSet step fuel (step c) else []

/-- One directional scan pass of `findLinearPatterns`/`findDiagonalLines`
with its processed-set. -/
def scanDir (rows cols : Nat) (cellSet : List Cell) (step : Cell → Cell)
    (dirName : String) :
    List Cell → List Cell → List Pattern → List Pattern × List Cell
  | [], processed, acc => (acc, processed)
  | c :: rest, processed, acc =>
    if processed.contains c then scanDir rows cols cellSet step dirName rest processed acc
    else
      let run := walkRun cellSet step (cellSet.length + 1) c
      let acc' := if run.length ≥ 4 then
          acc ++ [createLinePattern rows cols run run.length dirName]
        else acc
      scanDir rows cols cellSet step dirName rest (processed ++ run) acc'

/-- `findLinearPatterns(cells)` followed by `findDiagonalLines`: the JS
shares one processed set between the horizontal and vertical passes but
under disjoint `h:`/`v:` key prefixes, so the passes are independent. -/
def findLinearPatterns (rows cols : Nat) (cells : List Cell) : List Pattern :=
  let cellSet := cells
  let hp := (scanDir rows cols cellSet (fun c => (c.1 + 1, c.2)) "horizontal" cells [] []).1
  let vp := (scanDir rows cols cellSet (fun c => (c.1, c.2 + 1)) "vertical" cells [] []).1
  let d1 := (scanDir rows cols cellSet (fun c => (c.1 + 1, c.2 + 1)) "diagonal" cells [] []).1
  let d2 := (scanDir rows cols cellSet (fun c => (c.1 - 1, c.2 + 1)) "diagonal" cells [] []).1
  hp ++ vp ++ d1 ++ d2

/-- Inclusive `Nat` range `[a, b]` (empty when `b < a`). -/
def natRangeIncl (a b : Nat) : List Nat :=
  (List.range (b + 1 - a)).map (· + a)

/-- `isCompleteRectangle(cellSet, startX, startY, width, height)`. -/
def isCompleteRectangle (cellSet : List Cell) (sx sy : Int) (w h : Nat) : Bool :=
  (List.range h).all (fun dy => (List.range w).all (fun dx =>
    cellSet.contains (sx + dx, sy + dy)))

/-- `getRectangleCells(startX, startY, width, height)`. -/
def getRectangleCells (sx sy : Int) (w h : Nat) : List Cell :=
  (List.range h).flatMap (fun dy => (List.range w).map (fun dx =>
    ((sx + dx : Int), (sy + dy : Int))))

/-- `createRectanglePattern(cells, width, height)`. -/
def createRectanglePattern (cells : List Cell) (w h : Nat) : Pattern :=
  if w == h then
    let patternId :=
      if w == 3 then "MINI_SQUARE_3x3"
      else if w == 4 then "LARGE_SQUARE_4x4"
      else if w == 5 then "LARGE_SQUARE_5x5"
      else "EXTRA_LARGE_SQUARE"
    { id := patternId, ptype := "square", width := some w, height := some h,
      points := (patternDefPoints patternId).getD ((w * h * 2 : Nat) : ℚ),
      cells := cells, priority := (w * h : ℚ) }
  else
    let lo := min w h
    let hi := max w h
    let key := s!"{lo}x{hi}"
    let patternId :=
      if key == "2x3" then "SMALL_RECTANGLE_2x3"
      else if key == "3x4" then "LARGE_RECTANGLE_3x4"
      else if key == "2x6" then "LARGE_RECTANGLE_2x6"
      else "CUSTOM_RECTANGLE"
    { id := patternId, ptype := "rectangle", width := some w, height := some h,
      points := (patternDefPoints patternId).getD (mkRat (3 * (w * h)) 2),
      cells := cells, priority := (w * h : ℚ) }

/-- Anchor loop of `findRectanglesOfSize` with its per-size processed set
(positions covered by an already-found rectangle of this size are
skipped). -/
def rectLoop (cellSet : List Cell) (w h : Nat) :
    List (Int × Int) → List (Int × Int) → List Pattern → List Pattern
  | [], _, acc => acc
  | p :: rest, processed, acc =>
    if processed.contains p then rectLoop cellSet w h rest processed acc
    else if isCompleteRectangle cellSet p.1 p.2 w h then
      let covered := (List.range h).flatMap (fun dy => (List.range w).map
        (fun dx => ((p.1 + dx : Int), (p.2 + dy : Int))))
      rectLoop cellSet w h rest (processed ++ covered)
        (acc ++ [createRectanglePattern (getRectangleCells p.1 p.2 w h) w h])
    else rectLoop cellSet w h rest processed acc

/-- `findRectanglesOfSize(cellSet, width, height)`. -/
def findRectanglesOfSize (rows cols : Nat) (cellSet : List Cell) (w h : Nat) :
    List Pattern :=
  let anchors := (natRangeIncl 0 (rows - h)).flatMap (fun sy =>
    (natRangeIncl 0 (cols - w)).map (fun sx => ((sx : Int), (sy : Int))))
  let anchors := if h ≤ rows ∧ w ≤ cols then anchors else []
  rectLoop cellSet w h anchors [] []

/-- `findRectangularPatterns(cells)`: widths then heights from 2 to
`min(6, dimension)`. -/
def findRectangularPatterns (rows cols : Nat) (cells : List Cell) : List Pattern :=
  let cellSet := cells
  (natRangeIncl 2 (min 6 cols)).flatMap (fun w =>
    (natRangeIncl 2 (min 6 rows)).flatMap (fun h =>
      findRectanglesOfSize rows cols cellSet w h))

/-- `findCornerControl(cells)`: ≥7 of the 9 cells of a 3×3 corner block. -/
def findCornerControl (rows cols : Nat) (cells : List Cell) : List Pattern :=
  let cellSet := cells
  let corners : List (Int × Int) :=
    [(0, 0), ((cols : Int) - 3, 0), (0, (rows : Int) - 3),
      ((cols : Int) - 3, (rows : Int) - 3)]
  corners.flatMap (fun corner =>
    if corner.1 < 0 ∨ corner.2 < 0 then []
    else
      let blockCells := (List.range 3).flatMap (fun dy =>
        (List.range 3).filterMap (fun dx =>
          let x := corner.1 + dx
          let y := corner.2 + dy
          if x < (cols : Int) ∧ y < (rows : Int) then some (x, y) else none))
      let controlled := (blockCells.filter (cellSet.contains ·)).length
      if controlled ≥ 7 then
        [{ id := "CORNER_CONTROL", ptype := "territory", subtype := some "corner",
           points := 12, cells := blockCells.filter (cellSet.contains ·),
           priority := (controlled : ℚ) }]
      else [])

/-- `findEdgeControl(cells)`: ≥80% of a full board edge (the JS
`Math.ceil(len * 0.8)` is exact for board-scale lengths). -/
def findEdgeControl (rows cols : Nat) (cells : List Cell) : List Pattern :=
  let cellSet := cells
  let edges : List (List Cell) :=
    [(List.range cols).map (fun x => ((x : Int), 0)),
     (List.range cols).map (fun x => ((x : Int), (rows : Int) - 1)),
     (List.range rows).map (fun y => ((0 : Int), (y : Int))),
     (List.range rows).map (fun y => (((cols : Int) - 1), (y : Int)))]
  edges.flatMap (fun edgeCellsAll =>
    let edgeCells := edgeCellsAll.filter (cellSet.contains ·)
    let controlled := edgeCells.length
    let required := (4 * edgeCellsAll.length + 4) / 5
    if controlled ≥ required then
      [{ id := "EDGE_CONTROL", ptype := "territory", subtype := some "edge",
         points := 15, cells := edgeCells, priority := (controlled : ℚ) }]
    else [])

/-- `findCenterDominance(cells)`: ≥75% of a centered 4×4 or 5×5 block
(`0.75` is dyadic, so the JS arithmetic is exact). -/
def findCenterDominance (rows cols : Nat) (cells : List Cell) : List Pattern :=
  let cellSet := cells
  let centerX : Int := (cols : Int) / 2
  let centerY : Int := (rows : Int) / 2
  ([4, 5] : List Nat).flatMap (fun size =>
    let startX := centerX - (size / 2 : Nat)
    let startY := centerY - (size / 2 : Nat)
    if startX < 0 ∨ startY < 0 ∨ (cols : Int) < startX + size ∨
        (rows : Int) < startY + size then []
    else
      let blockCells := (List.range size).flatMap (fun dy =>
        (List.range size).map (fun dx => ((startX + dx : Int), (startY + dy : Int))))
      let controlled := (blockCells.filter (cellSet.contains ·)).length
      let required := (3 * size * size + 3) / 4
      if controlled ≥ required then
        let patternId := if size == 4 then "CENTER_DOMINANCE_4x4" else "CENTER_DOMINANCE_5x5"
        [{ id := patternId, ptype := "territory", subtype := some "center",
           size := some size, points := (patternDefPoints patternId).getD 0,
           cells := blockCells.filter (cellSet.contains ·),
           priority := (controlled : ℚ) }]
      else [])

/-- `findEnclosures(cells)`: the source returns an empty array. -/
def findEnclosures (_cells : List Cell) : List Pattern := []

/-- `findTerritoryPatterns(cells)`. -/
def findTerritoryPatterns (rows cols : Nat) (cells : List Cell) : List Pattern :=
  findCornerControl rows cols cells ++ findEdgeControl rows cols cells ++
    findCenterDominance rows cols cells ++ findEnclosures cells

/-- `recognizePatterns(playerCells)`. -/
def recognizePatterns (rows cols : Nat) (cells : List Cell) : List Pattern :=
  findLinearPatterns rows cols cells ++ findRectangularPatterns rows cols cells ++
    findTerritoryPatterns rows cols cells

/-- Comparator of `resolveOverlappingPatterns`: points descending, then
priority descending (`b.points - a.points || b.priority - a.priority`). -/
def patternLe (a b : Pattern) : Bool :=
  b.points < a.points || (a.points == b.points && b.priority ≤ a.priority)

/-- Greedy selection loop of `resolveOverlappingPatterns` over the sorted
candidates, accumulating the used-cell set. -/
def greedyGo : List Pattern → List Cell → List Pattern → List Pattern
  | [], _, acc => acc
  | p :: rest, used, acc =>
    if p.cells.any (used.contains ·) then greedyGo rest used acc
    else greedyGo rest (used ++ p.cells) (acc ++ [p])

/-- `resolveOverlappingPatterns(patterns)`: sort by points then priority
(both descending; `mergeSort` is stable like the JS sort), then accept
greedily any pattern sharing no cell with an already-accepted one. -/
def resolveOverlappingPatterns (patterns : List Pattern) : List Pattern :=
  if patterns = [] then []
  else greedyGo (sortByLe patternLe patterns) [] []

/-- `patternIncludesNewCells(pattern, newCells)`. -/
def patternIncludesNewCells (p : Pattern) (newCells : List Cell) : Bool :=
  p.cells.any (newCells.contains ·)

/-- `getAllPlayerCells(playerId)`: row-major scan of the board. -/
def getAllPlayerCells (b : Board) (playerId : Int) : List Cell :=
  (List.range b.rows).flatMap (fun y =>
    (List.range b.cols).filterMap (fun x =>
      if gridAt b x y == playerId then some ((x : Int), (y : Int)) else none))

/-- Exact rational addition via cross-multiplication. `Rat.add` is marked
irreducible (blocking kernel evaluation); `mkRat` normalizes, so this
computes the same rational value as the source's `+`. -/
def qAdd (a b : ℚ) : ℚ :=
  mkRat (a.num * (b.den : Int) + b.num * (a.den : Int)) (a.den * b.den)

/-- Result record of `calculateNewPoints`. -/
structure ScoringResult where
  totalPoints : ℚ
  patterns : List Pattern
  allPatterns : List Pattern
deriving DecidableEq, Repr

/-- `calculateNewPoints(playerId, newCells)` of the recognizer. -/
def calculateNewPoints (b : Board) (playerId : Int) (newCells : List Cell) :
    ScoringResult :=
  let allPlayerCells := getAllPlayerCells b playerId
  let allPatterns := recognizePatterns b.rows b.cols allPlayerCells
  let resolvedPatterns := resolveOverlappingPatterns allPatterns
  let newPatterns := resolvedPatterns.filter (patternIncludesNewCells · newCells)
  { totalPoints := newPatterns.foldl (fun sum p => qAdd sum p.points) 0
    patterns := newPatterns
    allPatterns := resolvedPatterns }

/-! ## Game state (`GameState.js`)

The embedding keeps the rules-bearing fields. Purely presentational or
creation-time fields of the source state (`version`, `config`, player
`color`s, `endCondition`, the end-of-game `gameStatistics` summary, and
interpolated reason strings) are omitted or structured: no claim and no
rule reads them back. -/

/-- The two players. -/
inductive PlayerId where
  | P1 | P2
deriving DecidableEq, Repr

/-- `getOpponent(playerId)`. -/
def getOpponent : PlayerId → PlayerId
  | .P1 => .P2
  | .P2 => .P1

/-- Player ids as stored in board cells and compared with grid values. -/
def playerIdToInt : PlayerId → Int
  | .P1 => 1
  | .P2 => 2

/-- Association-list lookup mirroring JS object indexing, with the 0
default of `x || 0` / failed-comparison semantics at the use sites. -/
def alGet (a : List (PieceId × Int)) (k : PieceId) : Int :=
  (((a.find? (fun e => e.1 == k)).map Prod.snd)).getD 0

/-- JS object assignment `a[k] = v`: update an existing key in place,
else append. -/
def alSet (a : List (PieceId × Int)) (k : PieceId) (v : Int) : List (PieceId × Int) :=
  if a.any (fun e => e.1 == k) then a.map (fun e => if e.1 == k then (k, v) else e)
  else a ++ [(k, v)]

/-- A player record (`id` mirrors the map key and `color` is
presentational; both omitted). -/
structure Player where
  budget : Int
  arsenal : List (PieceId × Int)
deriving DecidableEq, Repr

/-- Draft sub-state. -/
structure DraftState where
  player1Passed : Bool
  player2Passed : Bool
  consecutivePasses : Int
deriving DecidableEq, Repr

/-- One scoring-history event. -/
structure ScoreEvent where
  turn : Nat
  player : PlayerId
  moveId : String
  pattern : String
  points : ℚ
  cells : List Cell
  patternType : String
  timestamp : Int
deriving DecidableEq, Repr

/-- The transient highlighted pattern (presentation aid with expiry). -/
structure Highlight where
  pattern : Pattern
  playerId : PlayerId
  expiresAt : Int
deriving DecidableEq, Repr

/-- Scoring sub-state. -/
structure Scoring where
  player1Score : ℚ
  player2Score : ℚ
  scoringHistory : List ScoreEvent
  lastScoringMove : Option String
  highlightedPattern : Option Highlight
deriving DecidableEq, Repr

/-- A move record. -/
structure Move where
  player : PlayerId
  pieceId : PieceId
  transform : Transform
  anchor : Cell
  absCells : List Cell
deriving DecidableEq, Repr

/-- Extra fields spread onto the history entry pushed by
`GameService.placePiece` (`{...move, id, pointsEarned, patternsCreated}`). -/
structure MoveInfo where
  id : String
  pointsEarned : ℚ
  patternsCreated : Nat
deriving DecidableEq, Repr

/-- A history entry: the raw move pushed by `commitMove` (`info = none`)
or the annotated copy pushed by `GameService.placePiece`. -/
structure HistoryEntry where
  move : Move
  info : Option MoveInfo
deriving DecidableEq, Repr

/-- Game phases. -/
inductive Phase where
  | SETUP | DRAFT | PLACEMENT | GAME_OVER
deriving DecidableEq, Repr

/-- Structured content of the end-of-game reason strings built by
`checkGameEnd` (the strings themselves are presentational). -/
inductive EndReason where
  | higherScore (winner : PlayerId)
  | fewerPieces (winner : PlayerId)
  | perfectTie
deriving DecidableEq, Repr

/-- The root game state. -/
structure GameState where
  phase : Phase
  board : Board
  player1 : Player
  player2 : Player
  stock : List (PieceId × Int)
  currentPlayer : PlayerId
  draftState : DraftState
  scoring : Scoring
  history : List HistoryEntry
  winner : Option PlayerId
  endReason : Option EndReason
  finalScores : Option (ℚ × ℚ)
deriving DecidableEq, Repr

/-- `gameState.players[playerId]`. -/
def getPlayer (s : GameState) : PlayerId → Player
  | .P1 => s.player1
  | .P2 => s.player2

/-- Functional update of one player record. -/
def setPlayer (s : GameState) (pid : PlayerId) (p : Player) : GameState :=
  match pid with
  | .P1 => { s with player1 := p }
  | .P2 => { s with player2 := p }

/-- `switchPlayer(gameState)`. -/
def switchPlayer (s : GameState) : GameState :=
  { s with currentPlayer := getOpponent s.currentPlayer }

/-- `gameState.scoring[player#Score]`. -/
def scoreOf (s : GameState) : PlayerId → ℚ
  | .P1 => s.scoring.player1Score
  | .P2 => s.scoring.player2Score

/-! ## Draft engine (`DraftService.js`) -/

/-- `canAfford(player, pieceId)`. -/
def canAfford (p : Player) (pieceId : PieceId) : Bool :=
  getPieceCost pieceId ≤ p.budget

/-- `inStock(stock, pieceId)`: `stock[pieceId] > 0 || stock[pieceId] === -1`
(a missing key is never `> 0` nor `=== -1`, matching the 0 default). -/
def inStock (stock : List (PieceId × Int)) (pieceId : PieceId) : Bool :=
  0 < alGet stock pieceId || alGet stock pieceId == -1

/-- `canBuy(gameState, playerId, pieceId)`. -/
def canBuy (s : GameState) (playerId : PlayerId) (pieceId : PieceId) : Bool :=
  canAfford (getPlayer s playerId) pieceId && inStock s.stock pieceId

/-- `buyPiece(gameState, playerId, pieceId)`: deduct cost, decrement
finite stock, increment arsenal, reset pass flags; throws
`Invalid purchase` when `canBuy` fails, before touching anything. -/
def buyPiece (s : GameState) (playerId : PlayerId) (pieceId : PieceId) :
    Except String GameState :=
  if ¬ canBuy s playerId pieceId then .error "Invalid purchase"
  else
    let p := getPlayer s playerId
    let cost := getPieceCost pieceId
    let p := { p with
      budget := p.budget - cost
      arsenal := alSet p.arsenal pieceId (alGet p.arsenal pieceId + 1) }
    let stock :=
      if alGet s.stock pieceId ≠ -1 then alSet s.stock pieceId (alGet s.stock pieceId - 1)
      else s.stock
    .ok { setPlayer s playerId p with
      stock := stock
      draftState :=
        { player1Passed := false, player2Passed := false, consecutivePasses := 0 } }

/-- `passDraft(gameState, playerId)`. -/
def passDraft (s : GameState) (playerId : PlayerId) : GameState :=
  let ds := s.draftState
  let ds :=
    if playerId = .P1 then { ds with player1Passed := true }
    else { ds with player2Passed := true }
  let ds :=
    if ds.player1Passed && ds.player2Passed then { ds with consecutivePasses := 2 }
    else { ds with consecutivePasses := 1 }
  { s with draftState := ds }

/-- `isDraftOver(gameState)`: both passed, or no player can afford any
piece whose stock count is `> 0` (note: the source does NOT treat the
`-1` unlimited sentinel as in stock here, unlike `inStock`). -/
def isDraftOver (s : GameState) : Bool :=
  if s.draftState.consecutivePasses ≥ 2 then true
  else
    let canBuyAny := ([PlayerId.P1, PlayerId.P2]).any (fun pid =>
      s.stock.any (fun e => 0 < e.2 && getPieceCost e.1 ≤ (getPlayer s pid).budget))
    ¬ canBuyAny

/-! ## Placement engine (`PlacementService.js`) -/

/-- `isLegalPlacement(board, transformedCells, anchor)`. -/
def isLegalPlacement (b : Board) (transformedCells : List Cell) (anchor : Cell) : Bool :=
  transformedCells.all (fun d =>
    let x := anchor.1 + d.1
    let y := anchor.2 + d.2
    isInBounds b x y && gridAt b x y == 0)

/-- Anchor positions visited by the bounded iteration (`y` outer, `x`
inner, both from 0 to `dimension - boundingBox`). -/
def anchorsFor (b : Board) (cells : List Cell) : List Cell :=
  let bounds := getBounds cells
  let maxX := (b.cols : Int) - bounds.width
  let maxY := (b.rows : Int) - bounds.height
  (List.range (maxY + 1).toNat).flatMap (fun y =>
    (List.range (maxX + 1).toNat).map (fun x => ((x : Int), (y : Int))))

/-- `hasLegalMove(gameState, playerId)`: short-circuiting existence scan
over owned pieces × unique orientations × fitting anchors. -/
def hasLegalMove (s : GameState) (playerId : PlayerId) : Bool :=
  (getPlayer s playerId).arsenal.any (fun e =>
    e.2 != 0 && (getUniqueTransforms e.1).any (fun tc =>
      (anchorsFor s.board tc.cells).any (fun a =>
        isLegalPlacement s.board tc.cells a)))

/-- `createMove(playerId, pieceId, transform, anchor)`. The
`Unknown piece` throw of the source is unreachable over the typed
`PieceId`. -/
def createMove (playerId : PlayerId) (pieceId : PieceId) (transform : Transform)
    (anchor : Cell) : Move :=
  let transformedCells := applyTransform (relCells pieceId) transform
  { player := playerId, pieceId := pieceId, transform := transform,
    anchor := anchor, absCells := calculateAbsCells transformedCells anchor }

/-- `enumerateLegalMoves(gameState, playerId, maxMoves)`: same scan as
`hasLegalMove` but collecting up to `maxMoves` moves, with the source's
limit guards at every loop level. -/
def enumerateLegalMoves (s : GameState) (playerId : PlayerId) (maxMoves : Nat) :
    List Move :=
  (getPlayer s playerId).arsenal.foldl (fun moves e =>
    if e.2 == 0 || maxMoves ≤ moves.length then moves
    else (getUniqueTransforms e.1).foldl (fun moves tc =>
      if maxMoves ≤ moves.length then moves
      else (anchorsFor s.board tc.cells).foldl (fun moves a =>
        if maxMoves ≤ moves.length then moves
        else if isLegalPlacement s.board tc.cells a then
          moves ++ [createMove playerId e.1 tc.transform a]
        else moves) moves) moves) []

/-- `isValidMove(gameState, move)`: ownership, cell-consistency
(re-derive and compare; the source's length check plus elementwise loop
equals list equality), and placement legality. The structural
`!move.player || !move.pieceId || ...` checks and the catalog-membership
check are vacuous over the typed records. -/
def isValidMove (s : GameState) (move : Move) : Bool :=
  let arsenal := (getPlayer s move.player).arsenal
  if alGet arsenal move.pieceId ≤ 0 then false
  else
    let transformedCells := applyTransform (relCells move.pieceId) move.transform
    let expectedAbsCells := calculateAbsCells transformedCells move.anchor
    if move.absCells ≠ expectedAbsCells then false
    else isLegalPlacement s.board transformedCells move.anchor

/-- `commitMove(gameState, move)`: re-validate, place on board, decrement
arsenal, append the raw move to history. -/
def commitMove (s : GameState) (move : Move) : Except String GameState :=
  if ¬ isValidMove s move then .error "Invalid move"
  else match placePieceBoard s.board move.absCells (playerIdToInt move.player) with
    | .error e => .error e
    | .ok b =>
      let p := getPlayer s move.player
      let p := { p with
        arsenal := alSet p.arsenal move.pieceId (alGet p.arsenal move.pieceId - 1) }
      .ok { setPlayer s move.player p with
        board := b
        history := s.history ++ [⟨move, none⟩] }

/-! ## Scoring service (`ScoringService.js`) -/

/-- `countRemainingPieces(arsenal)`. -/
def countRemainingPieces (a : List (PieceId × Int)) : Int :=
  (a.map Prod.snd).sum

/-- `patterns.reduce((max, p) => p.points > max.points ? p : max)`. -/
def highestPattern : Pattern → List Pattern → Pattern
  | m, [] => m
  | m, p :: rest => highestPattern (if m.points < p.points then p else m) rest

/-- Result record of `awardPoints`. -/
structure AwardResult where
  gameState : GameState
  pointsEarned : ℚ
  patterns : List Pattern
deriving DecidableEq, Repr

/-- `ScoringService.awardPoints(gameState, playerId, newCells, moveId)`:
recognize patterns on the current board, add the new points to the
mover's score, append one scoring-history entry per awarded pattern and
highlight the highest-value one. `now` models `Date.now()`. -/
def awardPoints (s : GameState) (playerId : PlayerId) (newCells : List Cell)
    (moveId : String) (now : Int) : AwardResult :=
  let scoringResult := calculateNewPoints s.board (playerIdToInt playerId) newCells
  let sc := s.scoring
  let sc :=
    match playerId with
    | .P1 => { sc with player1Score := qAdd sc.player1Score scoringResult.totalPoints }
    | .P2 => { sc with player2Score := qAdd sc.player2Score scoringResult.totalPoints }
  let historyEntries := scoringResult.patterns.map (fun pattern =>
    { turn := s.history.length + 1, player := playerId, moveId := moveId,
      pattern := pattern.id, points := pattern.points, cells := pattern.cells,
      patternType := pattern.ptype, timestamp := now : ScoreEvent })
  let sc := { sc with
    scoringHistory := sc.scoringHistory ++ historyEntries
    lastScoringMove := some moveId }
  let sc :=
    match scoringResult.patterns with
    | [] => sc
    | p :: rest =>
      let hl : Highlight :=
        { pattern := highestPattern p rest, playerId := playerId,
          expiresAt := now + 3000 }
      { sc with highlightedPattern := some hl }
  { gameState := { s with scoring := sc }
    pointsEarned := scoringResult.totalPoints
    patterns := scoringResult.patterns }

/-- Result record of `checkGameEnd` (reason strings structured). -/
structure GameEndResult where
  gameEnded : Bool
  winner : Option PlayerId
  reason : Option EndReason
  finalScores : Option (ℚ × ℚ)
  remainingPieces : Option (Int × Int)
deriving DecidableEq, Repr

/-- `ScoringService.checkGameEnd(gameState, hasLegalMove)`. -/
def checkGameEnd (s : GameState) (hasLegalMoveFn : GameState → PlayerId → Bool) :
    GameEndResult :=
  let player1Blocked := ¬ hasLegalMoveFn s .P1
  let player2Blocked := ¬ hasLegalMoveFn s .P2
  if ¬ player1Blocked ∨ ¬ player2Blocked then
    { gameEnded := false, winner := none, reason := none,
      finalScores := none, remainingPieces := none }
  else
    let score1 := s.scoring.player1Score
    let score2 := s.scoring.player2Score
    let remaining1 := countRemainingPieces s.player1.arsenal
    let remaining2 := countRemainingPieces s.player2.arsenal
    let wr : PlayerId × EndReason :=
      if score2 < score1 then (.P1, .higherScore .P1)
      else if score1 < score2 then (.P2, .higherScore .P2)
      else if remaining1 < remaining2 then (.P1, .fewerPieces .P1)
      else if remaining2 < remaining1 then (.P2, .fewerPieces .P2)
      else (.P1, .perfectTie)
    { gameEnded := true, winner := some wr.1, reason := some wr.2,
      finalScores := some (score1, score2),
      remainingPieces := some (remaining1, remaining2) }

/-- `ScoringService.clearExpiredHighlights(gameState)`. -/
def clearExpiredHighlights (s : GameState) (now : Int) : GameState :=
  match s.scoring.highlightedPattern with
  | none => s
  | some h =>
    if h.expiresAt ≤ now then
      { s with scoring := { s.scoring with highlightedPattern := none } }
    else s

/-! ## Orchestrator (`GameService.js`) -/

/-- `GameService.endGameWithScoring(gameState)` (the `gameStatistics`
summary it also stores is presentational and not modelled). -/
def endGameWithScoring (s : GameState) : GameState :=
  let endResult := checkGameEnd s hasLegalMove
  { s with
    phase := Phase.GAME_OVER
    winner := endResult.winner
    endReason := endResult.reason
    finalScores := endResult.finalScores }

/-- `GameService.startTurn(gameState)`: in PLACEMENT, clear expired
highlights, skip a blocked player, or end the game when both are
blocked. -/
def startTurn (s : GameState) (now : Int) : GameState :=
  if s.phase ≠ .PLACEMENT then s
  else
    let s1 := clearExpiredHighlights s now
    if hasLegalMove s1 s1.currentPlayer then s1
    else if hasLegalMove s1 (getOpponent s1.currentPlayer) then switchPlayer s1
    else endGameWithScoring s1

/-- `GameService.transitionToPlacement(gameState)`. -/
def transitionToPlacement (s : GameState) (now : Int) : GameState :=
  startTurn { s with phase := .PLACEMENT, currentPlayer := .P1 } now

/-- `GameService.draftBuy(gameState, playerId, pieceId)`. -/
def draftBuy (s : GameState) (playerId : PlayerId) (pieceId : PieceId)
    (now : Int) : Except String GameState :=
  if s.phase ≠ .DRAFT then .error "Not in draft phase"
  else if s.currentPlayer ≠ playerId then .error "Not current player turn"
  else match buyPiece s playerId pieceId with
    | .error e => .error e
    | .ok s1 =>
      let s2 := switchPlayer s1
      .ok (if isDraftOver s2 then transitionToPlacement s2 now else s2)

/-- `GameService.draftPass(gameState, playerId)`. -/
def draftPass (s : GameState) (playerId : PlayerId) (now : Int) :
    Except String GameState :=
  if s.phase ≠ .DRAFT then .error "Not in draft phase"
  else if s.currentPlayer ≠ playerId then .error "Not current player turn"
  else
    let s1 := passDraft s playerId
    let s2 := switchPlayer s1
    .ok (if isDraftOver s2 then transitionToPlacement s2 now else s2)

/-- `GameService.placePiece(gameState, move)`: phase/turn checks, commit,
award points, push the annotated history entry, switch player, start the
next turn. `now` models both `Date.now()` reads of the source. -/
def placePiece (s : GameState) (move : Move) (now : Int) :
    Except String GameState :=
  if s.phase ≠ .PLACEMENT then .error "Not in placement phase"
  else if s.currentPlayer ≠ move.player then .error "Not current player turn"
  else match commitMove s move with
    | .error e => .error e
    | .ok s1 =>
      let moveId := "move_" ++ toString s1.history.length ++ "_" ++ toString now
      let result := awardPoints s1 move.player move.absCells moveId now
      let s2 := result.gameState
      let s3 := { s2 with history := s2.history ++
        [⟨move, some ⟨moveId, result.pointsEarned, result.patterns.length⟩⟩] }
      let s4 := switchPlayer s3
      .ok (startTurn s4 now)


/-! ## Spec-side reference definitions

These definitions transcribe the WORDS of the specification (not the
source); the theorems below compare them against the source-derived
definitions above. -/

/-- The claim's winner rule for a blocked-blocked end: higher score wins;
exact score tie → fewer total remaining arsenal pieces wins; tie on both
→ player 1. -/
def claimWinner (s : GameState) : PlayerId :=
  if s.scoring.player1Score ≠ s.scoring.player2Score then
    (if s.scoring.player2Score < s.scoring.player1Score then .P1 else .P2)
  else if countRemainingPieces s.player1.arsenal ≠
      countRemainingPieces s.player2.arsenal then
    (if countRemainingPieces s.player1.arsenal <
        countRemainingPieces s.player2.arsenal then .P1 else .P2)
  else .P1

/-- The claim's greedy overlap resolution: walk the sorted candidates in
order, accepting a pattern exactly when none of its cells belongs to an
already-ACCEPTED pattern (accumulating accepted patterns, not a used-cell
set). -/
def specGreedySelect (acc : List Pattern) : List Pattern → List Pattern
  | [] => acc
  | p :: rest =>
    if p.cells.any (fun c => acc.any (fun q => q.cells.contains c)) then
      specGreedySelect acc rest
    else specGreedySelect (acc ++ [p]) rest

/-- The unbounded legal-move list underlying `enumerateLegalMoves`: all
legal (piece, orientation, anchor) combinations in visit order. -/
def allLegalMoves (s : GameState) (playerId : PlayerId) : List Move :=
  (getPlayer s playerId).arsenal.flatMap (fun e =>
    if e.2 == 0 then []
    else (getUniqueTransforms e.1).flatMap (fun tc =>
      ((anchorsFor s.board tc.cells).filter
        (isLegalPlacement s.board tc.cells)).map
        (createMove playerId e.1 tc.transform)))

/-- The clock-independent, rules-relevant projection of a game state:
everything except the clock-derived presentation data (scoring-history
entries and move ids carry `Date.now()` values, the highlight carries an
expiry); history entries are projected to their raw moves. -/
structure Core where
  phase : Phase
  board : Board
  player1 : Player
  player2 : Player
  stock : List (PieceId × Int)
  currentPlayer : PlayerId
  draftState : DraftState
  player1Score : ℚ
  player2Score : ℚ
  moves : List Move
  winner : Option PlayerId
  endReason : Option EndReason
  finalScores : Option (ℚ × ℚ)
deriving DecidableEq, Repr

/-- Project a game state to its rules-relevant core. -/
def core (s : GameState) : Core :=
  ⟨s.phase, s.board, s.player1, s.player2, s.stock, s.currentPlayer,
    s.draftState, s.scoring.player1Score, s.scoring.player2Score,
    s.history.map HistoryEntry.move, s.winner, s.endReason, s.finalScores⟩

/-- Core projection through `Except`. -/
def coreE : Except String GameState → Except String Core
  | .error e => .error e
  | .ok s => .ok (core s)

/-! ## Concrete states used as evaluation inputs -/

/-- An empty 5×5 grid. -/
def emptyGrid5 : List (List Int) := List.replicate 5 (List.replicate 5 0)

/-- An empty 5×5 board. -/
def board5 : Board := ⟨5, 5, emptyGrid5⟩

/-- A PLACEMENT-phase state on an empty 5×5 board where each player owns
one O4 piece and it is player 1's turn. -/
def examplePlacementState : GameState :=
  { phase := .PLACEMENT
    board := board5
    player1 := { budget := 10, arsenal := [(.O4, 1)] }
    player2 := { budget := 10, arsenal := [(.O4, 1)] }
    stock := []
    currentPlayer := .P1
    draftState := ⟨false, false, 0⟩
    scoring := ⟨0, 0, [], none, none⟩
    history := []
    winner := none
    endReason := none
    finalScores := none }

/-- A legal O4 move for player 1 at anchor (3, 3). -/
def exampleMoveO4 : Move := createMove .P1 .O4 ⟨0, false⟩ (3, 3)

/-- Like `examplePlacementState` but player 1 owns a T4. -/
def exampleT4State : GameState :=
  { examplePlacementState with player1 := { budget := 10, arsenal := [(.T4, 1)] } }

/-- A DRAFT-phase state with unlimited stock of T4 (the `-1` sentinel),
ample budgets, and no passes recorded. -/
def exampleUnlimitedDraftState : GameState :=
  { examplePlacementState with
    phase := .DRAFT
    stock := [(.T4, -1)]
    player1 := { budget := 33, arsenal := [] }
    player2 := { budget := 33, arsenal := [] } }

/-! ## Verification of the claims -/

/-! ## Basic facts about the geometry embedding -/

theorem listMin_cons_foldl (x : Int) (xs : List Int) :
    listMin (x :: xs) = xs.foldl min x := rfl

theorem foldl_min_map_add (d : Int) :
    ∀ (xs : List Int) (a : Int),
      (xs.map (· + d)).foldl min (a + d) = xs.foldl min a + d := by
  intro xs
  induction xs with
  | nil => intro a; rfl
  | cons x xs ih =>
    intro a
    simp only [List.map_cons, List.foldl_cons]
    rw [show (a + d) ⊓ (x + d) = (a ⊓ x) + d from min_add_add_right a x d, ih]

theorem listMin_map_add (d : Int) (xs : List Int) (h : xs ≠ []) :
    listMin (xs.map (· + d)) = listMin xs + d := by
  cases xs with
  | nil => exact absurd rfl h
  | cons x xs => simpa [listMin] using foldl_min_map_add d xs x

theorem minX_map_translate (d : Cell) (l : List Cell) (h : l ≠ []) :
    minX (l.map (translateC d)) = minX l + d.1 := by
  unfold minX
  have : (l.map (translateC d)).map Prod.fst = (l.map Prod.fst).map (· + d.1) := by
    simp [translateC, Function.comp]
  rw [this, listMin_map_add d.1 (l.map Prod.fst) (by simpa using h)]

theorem minY_map_translate (d : Cell) (l : List Cell) (h : l ≠ []) :
    minY (l.map (translateC d)) = minY l + d.2 := by
  unfold minY
  have : (l.map (translateC d)).map Prod.snd = (l.map Prod.snd).map (· + d.2) := by
    simp [translateC, Function.comp]
  rw [this, listMin_map_add d.2 (l.map Prod.snd) (by simpa using h)]

theorem translateC_translateC (d e : Cell) (c : Cell) :
    translateC d (translateC e c) = translateC (e.1 + d.1, e.2 + d.2) c := by
  simp [translateC]; constructor <;> omega

/-- Normalization is invariant under prior translation. -/
theorem normalizeCells_map_translate (d : Cell) (l : List Cell) (h : l ≠ []) :
    normalizeCells (l.map (translateC d)) = normalizeCells l := by
  unfold normalizeCells
  rw [minX_map_translate d l h, minY_map_translate d l h]
  rw [List.map_map]
  apply List.map_congr_left
  intro c _
  simp [Function.comp, translateC]
  constructor <;> omega

/-- Rotation commutes with translation (up to rotating the vector). -/
theorem map_rotC_map_translate (d : Cell) (l : List Cell) :
    (l.map (translateC d)).map rotC = (l.map rotC).map (translateC (rotC d)) := by
  rw [List.map_map, List.map_map]
  apply List.map_congr_left
  intro c _
  simp only [Function.comp, rotC, translateC, Prod.mk.injEq]
  constructor <;> ring_nf

theorem normalizeCells_eq_of_normalized (l : List Cell)
    (hx : minX l = 0) (hy : minY l = 0) : normalizeCells l = l := by
  unfold normalizeCells
  rw [hx, hy]
  have : ∀ c ∈ l, translateC (-(0:Int), -(0:Int)) c = c := by
    intro c _; simp [translateC]
  rw [List.map_congr_left this, List.map_id']

theorem applyTransform_rot90 (l : List Cell) :
    applyTransform l ⟨90, false⟩ = normalizeCells (l.map rotC) := rfl

theorem normalizeCells_ne_nil {l : List Cell} (h : l ≠ []) :
    normalizeCells l ≠ [] := by
  unfold normalizeCells
  simpa using h

/-- Rotating a normalized list and re-normalizing gives the same result as
rotating the original list and normalizing: normalization only translates. -/
theorem normalizeCells_map_rotC_normalizeCells (l : List Cell) (h : l ≠ []) :
    normalizeCells ((normalizeCells l).map rotC) = normalizeCells (l.map rotC) := by
  unfold normalizeCells
  rw [map_rotC_map_translate]
  exact normalizeCells_map_translate _ _ (by simpa using h)

theorem rotC_rotC_rotC_rotC (c : Cell) : rotC (rotC (rotC (rotC c))) = c := by
  simp [rotC]



/-- C9: applying `applyTransform` with `{rotation: 90, flipX: false}` four
times in sequence to any nonempty normalized shape returns exactly the
original cell list. -/
theorem C9_rotation_closure (l : List Cell) (hne : l ≠ [])
    (hx : minX l = 0) (hy : minY l = 0) :
    applyTransform (applyTransform (applyTransform
      (applyTransform l ⟨90, false⟩) ⟨90, false⟩) ⟨90, false⟩) ⟨90, false⟩ = l := by
  have h1 : l.map rotC ≠ [] := by simpa using hne
  have h2 : (l.map rotC).map rotC ≠ [] := by simpa using hne
  have h3 : ((l.map rotC).map rotC).map rotC ≠ [] := by simpa using hne
  simp only [applyTransform_rot90]
  rw [normalizeCells_map_rotC_normalizeCells (l.map rotC) h1,
      normalizeCells_map_rotC_normalizeCells ((l.map rotC).map rotC) h2,
      normalizeCells_map_rotC_normalizeCells (((l.map rotC).map rotC).map rotC) h3]
  have : (((l.map rotC).map rotC).map rotC).map rotC = l := by
    simp only [List.map_map]
    have : ∀ c ∈ l, (rotC ∘ rotC ∘ rotC ∘ rotC) c = id c := by
      intro c _
      simp [Function.comp, rotC_rotC_rotC_rotC]
    rw [List.map_congr_left this, List.map_id]
  rw [this]
  exact normalizeCells_eq_of_normalized l hx hy

/-- Witness for C9 at the T-tetromino's cells. -/
theorem C9_rotation_closure_witness :
    (([((0:Int),(0:Int)),(1,0),(2,0),(1,1)] : List Cell) ≠ [] ∧
      minX [((0:Int),(0:Int)),(1,0),(2,0),(1,1)] = 0 ∧
      minY [((0:Int),(0:Int)),(1,0),(2,0),(1,1)] = 0) ∧
    applyTransform (applyTransform (applyTransform
      (applyTransform [((0:Int),(0:Int)),(1,0),(2,0),(1,1)] ⟨90, false⟩)
        ⟨90, false⟩) ⟨90, false⟩) ⟨90, false⟩ =
      [((0:Int),(0:Int)),(1,0),(2,0),(1,1)] :=
  ⟨⟨by decide, by decide, by decide⟩,
    C9_rotation_closure _ (by decide) (by decide) (by decide)⟩

/-- C2: evaluating `GameService.placePiece` on a legal O4 move at anchor
(3, 3) in a PLACEMENT-phase state with empty history: the board gains
exactly cells (3,3),(4,3),(3,4),(4,4) for player 1 and the O4 arsenal
entry drops to 0 as claimed, but history receives TWO entries — the raw
move pushed by `commitMove` and the annotated copy pushed again by
`placePiece` — where the claim (and the repository's own test, which
expects `history` of length 1 after one placement) says exactly one. -/
theorem C2_placePiece_appends_two_history_entries :
    (placePiece examplePlacementState exampleMoveO4 0).toOption.map
        (fun s => s.history) =
      some [⟨exampleMoveO4, none⟩,
            ⟨exampleMoveO4, some ⟨"move_1_0", 8, 1⟩⟩] ∧
    (placePiece examplePlacementState exampleMoveO4 0).toOption.map
        (fun s => (gridAt s.board 3 3, gridAt s.board 4 3, gridAt s.board 3 4,
                   gridAt s.board 4 4, gridAt s.board 0 0,
                   alGet s.player1.arsenal .O4)) =
      some (1, 1, 1, 1, 0, 0) := by
  constructor
  · decide
  · decide

/-- C3: in a DRAFT state with zero consecutive passes where the stock
holds T4 at the `-1` unlimited sentinel and both budgets cover its cost,
`isDraftOver` returns `true` even though `canBuy` (built on `inStock`,
which recognizes `-1`) still allows a legal purchase: the draft-over scan
tests `stock[pieceId] > 0` only, contradicting the claim and the
engine's own availability predicate. -/
theorem C3_isDraftOver_ignores_unlimited_stock :
    isDraftOver exampleUnlimitedDraftState = true ∧
    canBuy exampleUnlimitedDraftState .P1 .T4 = true ∧
    inStock exampleUnlimitedDraftState.stock .T4 = true ∧
    canAfford (getPlayer exampleUnlimitedDraftState .P1) .T4 = true ∧
    exampleUnlimitedDraftState.draftState.consecutivePasses = 0 := by
  refine ⟨by decide, by decide, by decide, by decide, by decide⟩

/-- C8: malformed transforms are silently coerced, not rejected:
`validateTransform` does flag rotation 45, but it is never called from
`applyTransform`, `createMove` or `isValidMove`; the rotation loop runs
`⌈45/90⌉ = 1` time, so rotation 45 acts exactly like rotation 90, and
`createMove`/`isValidMove` accept the move built from it. -/
theorem C8_invalid_transform_silently_coerced :
    validateTransform ⟨45, false⟩ = false ∧
    applyTransform (relCells .T4) ⟨45, false⟩ =
      applyTransform (relCells .T4) ⟨90, false⟩ ∧
    applyTransform (relCells .T4) ⟨45, false⟩ ≠
      applyTransform (relCells .T4) ⟨0, false⟩ ∧
    isValidMove exampleT4State (createMove .P1 .T4 ⟨45, false⟩ (0, 0)) = true := by
  refine ⟨by decide, by decide, by decide, by decide⟩

/-- C5 counterexample: an 11-cell run spanning an 11-column board is
classified FULL_ROW worth 25, but the same 11-cell run on a 12-column
board is an ordinary line worth `min(30, 33) = 30`: the full row is
STRICTLY LOWER valued than an ordinary line of the same length. -/
theorem C5_counterexample_full_row_below_long_line :
    (createLinePattern 11 11 ((List.range 11).map (fun x => ((x : Int), 0)))
        11 "horizontal").id = "FULL_ROW" ∧
    (createLinePattern 11 12 ((List.range 11).map (fun x => ((x : Int), 0)))
        11 "horizontal").id = "EXTRA_LONG_LINE" ∧
    (createLinePattern 11 11 ((List.range 11).map (fun x => ((x : Int), 0)))
        11 "horizontal").points <
      (createLinePattern 11 12 ((List.range 11).map (fun x => ((x : Int), 0)))
        11 "horizontal").points := by
  refine ⟨by decide, by decide, by decide⟩

/-- C5 amended: for runs of length `n` with `4 ≤ n ≤ 10` (runs shorter
than 4 yield no pattern at all), a run spanning the whole board width
(resp. height) is classified FULL_ROW (resp. FULL_COLUMN) worth 25,
strictly more than the same-length ordinary horizontal/vertical line on a
non-spanning board; for `n ≥ 11` the ordinary value 30 exceeds 25. -/
theorem C5_full_row_column_value (r c n : Nat) (cells : List Cell)
    (h4 : 4 ≤ n) (h10 : n ≤ 10) (hc : n ≠ c) (hr : n ≠ r) :
    ((createLinePattern r n cells n "horizontal").id = "FULL_ROW" ∧
     (createLinePattern r n cells n "horizontal").points = 25) ∧
    ((createLinePattern n c cells n "vertical").id = "FULL_COLUMN" ∧
     (createLinePattern n c cells n "vertical").points = 25) ∧
    (createLinePattern r c cells n "horizontal").points < 25 ∧
    (createLinePattern r c cells n "vertical").points < 25 := by
  have hcb : (n == c) = false := beq_eq_false_iff_ne.mpr hc
  have hrb : (n == r) = false := beq_eq_false_iff_ne.mpr hr
  interval_cases n <;>
    exact ⟨⟨by simp [createLinePattern, patternDefPoints],
            by simp [createLinePattern, patternDefPoints]⟩,
           ⟨by simp [createLinePattern, patternDefPoints],
            by simp [createLinePattern, patternDefPoints]⟩,
           by simp [createLinePattern, patternDefPoints, hcb]; decide,
           by simp [createLinePattern, patternDefPoints, hrb]; decide⟩

/-- Witness for C5's amended statement at length 8 on a 9×9 board. -/
theorem C5_full_row_column_value_witness :
    (4 ≤ 8 ∧ 8 ≤ 10 ∧ 8 ≠ 9 ∧ 8 ≠ 9) ∧
    (((createLinePattern 9 8 [] 8 "horizontal").id = "FULL_ROW" ∧
      (createLinePattern 9 8 [] 8 "horizontal").points = 25) ∧
     ((createLinePattern 8 9 [] 8 "vertical").id = "FULL_COLUMN" ∧
      (createLinePattern 8 9 [] 8 "vertical").points = 25) ∧
     (createLinePattern 9 9 [] 8 "horizontal").points < 25 ∧
     (createLinePattern 9 9 [] 8 "vertical").points < 25) :=
  ⟨⟨by decide, by decide, by decide, by decide⟩,
    C5_full_row_column_value 9 9 8 [] (by decide) (by decide) (by decide) (by decide)⟩

/-- C6: `checkGameEnd` (over an arbitrary legal-move oracle, as in the
source where the function is passed in) reports the game ended exactly
when neither player has a legal move, and in that case the winner is
the higher score, then fewer remaining pieces, then player 1. -/
theorem C6_checkGameEnd_blocked_winner (s : GameState)
    (f : GameState → PlayerId → Bool) :
    ((checkGameEnd s f).gameEnded = true ↔ (f s .P1 = false ∧ f s .P2 = false)) ∧
    (checkGameEnd s f).winner =
      (if (checkGameEnd s f).gameEnded then some (claimWinner s) else none) := by
  unfold checkGameEnd claimWinner
  cases hf1 : f s .P1 <;> cases hf2 : f s .P2 <;> simp
  rcases lt_trichotomy s.scoring.player1Score s.scoring.player2Score with h | h | h
  · simp [h, not_lt.mpr (le_of_lt h), ne_of_lt h]
  · simp [h]
    rcases lt_trichotomy (countRemainingPieces s.player1.arsenal)
      (countRemainingPieces s.player2.arsenal) with h2 | h2 | h2
    · simp [h2, not_lt.mpr (le_of_lt h2), ne_of_lt h2]
    · simp [h2]
    · simp [not_lt.mpr (le_of_lt h2), h2, ne_of_gt h2]
  · simp [not_lt.mpr (le_of_lt h), h, ne_of_gt h]

/-! ### C10: the existence check agrees with the bounded enumeration -/

theorem foldl_guarded_take {α β : Type} (F : α → List β) (lim : Nat) :
    ∀ (L : List α) (acc : List β),
      L.foldl (fun moves x =>
        if lim ≤ moves.length then moves
        else moves ++ (F x).take (lim - moves.length)) acc
      = acc ++ (L.flatMap F).take (lim - acc.length) := by
  intro L
  induction L with
  | nil => intro acc; simp
  | cons x xs ih =>
    intro acc
    simp only [List.foldl_cons, List.flatMap_cons]
    by_cases h : lim ≤ acc.length
    · rw [if_pos h, ih, Nat.sub_eq_zero_of_le h]
      simp
    · rw [if_neg h, ih, List.take_append_eq_append_take, ← List.append_assoc]
      congr 2
      simp only [List.length_append, List.length_take]
      omega

theorem flatMap_if_singleton {α β : Type} (P : α → Bool) (mk : α → β) (L : List α) :
    L.flatMap (fun a => if P a then [mk a] else []) = (L.filter P).map mk := by
  induction L with
  | nil => rfl
  | cons a as ih =>
    simp only [List.flatMap_cons, List.filter_cons]
    by_cases h : P a <;> simp [h, ih]

/-- The bounded enumeration returns exactly the first `maxMoves` elements
of the full legal-move list: the guards at every loop level only ever cut
off the tail. -/
theorem enumerateLegalMoves_eq_take (s : GameState) (p : PlayerId) (lim : Nat) :
    enumerateLegalMoves s p lim = (allLegalMoves s p).take lim := by
  unfold enumerateLegalMoves allLegalMoves
  have anchorStep : ∀ (cells : List Cell) (moves : List Move) (pid : PieceId)
      (tr : Transform),
      ((anchorsFor s.board cells).foldl (fun moves a =>
        if lim ≤ moves.length then moves
        else if isLegalPlacement s.board cells a then
          moves ++ [createMove p pid tr a]
        else moves) moves)
      = moves ++ (((anchorsFor s.board cells).filter
          (isLegalPlacement s.board cells)).map
          (createMove p pid tr)).take (lim - moves.length) := by
    intro cells moves pid tr
    rw [← flatMap_if_singleton (isLegalPlacement s.board cells) (createMove p pid tr)]
    rw [show (fun (moves : List Move) a =>
        if lim ≤ moves.length then moves
        else if isLegalPlacement s.board cells a then
          moves ++ [createMove p pid tr a]
        else moves)
      = (fun moves a =>
        if lim ≤ moves.length then moves
        else moves ++ ((fun a => if isLegalPlacement s.board cells a then
            [createMove p pid tr a] else []) a).take (lim - moves.length)) from ?_]
    · exact foldl_guarded_take _ lim _ moves
    · funext moves a
      by_cases h1 : lim ≤ moves.length
      · simp [h1]
      · by_cases h2 : isLegalPlacement s.board cells a = true
        · have hk : lim - moves.length = (lim - moves.length - 1) + 1 := by omega
          simp only [if_neg h1, h2, if_true]
          rw [hk, List.take_succ_cons, List.take_nil]
        · simp [h1, h2]
  have transformStep : ∀ (pid : PieceId) (moves : List Move),
      ((getUniqueTransforms pid).foldl (fun moves tc =>
        if lim ≤ moves.length then moves
        else (anchorsFor s.board tc.cells).foldl (fun moves a =>
          if lim ≤ moves.length then moves
          else if isLegalPlacement s.board tc.cells a then
            moves ++ [createMove p pid tc.transform a]
          else moves) moves) moves)
      = moves ++ ((getUniqueTransforms pid).flatMap (fun tc =>
          ((anchorsFor s.board tc.cells).filter
            (isLegalPlacement s.board tc.cells)).map
            (createMove p pid tc.transform))).take (lim - moves.length) := by
    intro pid moves
    rw [show (fun (moves : List Move) (tc : Orientation) =>
        if lim ≤ moves.length then moves
        else (anchorsFor s.board tc.cells).foldl (fun moves a =>
          if lim ≤ moves.length then moves
          else if isLegalPlacement s.board tc.cells a then
            moves ++ [createMove p pid tc.transform a]
          else moves) moves)
      = (fun moves tc =>
        if lim ≤ moves.length then moves
        else moves ++ ((fun (tc : Orientation) =>
          ((anchorsFor s.board tc.cells).filter
            (isLegalPlacement s.board tc.cells)).map
            (createMove p pid tc.transform)) tc).take (lim - moves.length)) from ?_]
    · exact foldl_guarded_take _ lim _ moves
    · funext moves tc
      by_cases h1 : lim ≤ moves.length
      · simp [h1]
      · rw [if_neg h1, if_neg h1, anchorStep]
  rw [show (fun (moves : List Move) (e : PieceId × Int) =>
      if e.2 == 0 || lim ≤ moves.length then moves
      else (getUniqueTransforms e.1).foldl (fun moves tc =>
        if lim ≤ moves.length then moves
        else (anchorsFor s.board tc.cells).foldl (fun moves a =>
          if lim ≤ moves.length then moves
          else if isLegalPlacement s.board tc.cells a then
            moves ++ [createMove p e.1 tc.transform a]
          else moves) moves) moves)
    = (fun moves e =>
      if lim ≤ moves.length then moves
      else moves ++ ((fun (e : PieceId × Int) =>
        if e.2 == 0 then []
        else (getUniqueTransforms e.1).flatMap (fun tc =>
          ((anchorsFor s.board tc.cells).filter
            (isLegalPlacement s.board tc.cells)).map
            (createMove p e.1 tc.transform))) e).take (lim - moves.length)) from ?_]
  · rw [foldl_guarded_take _ lim _ []]
    simp
  · funext moves e
    by_cases h0 : e.2 == 0
    · by_cases h1 : lim ≤ moves.length <;> simp [h0, h1]
    · by_cases h1 : lim ≤ moves.length
      · simp [h0, h1]
      · simp only [h0, h1, Bool.false_or, if_neg, if_false]
        rw [transformStep]
        simp [h0]

theorem hasLegalMove_iff_exists (s : GameState) (p : PlayerId) :
    hasLegalMove s p = true ↔
      ∃ e ∈ (getPlayer s p).arsenal, e.2 ≠ 0 ∧
        ∃ tc ∈ getUniqueTransforms e.1,
          ∃ a ∈ anchorsFor s.board tc.cells,
            isLegalPlacement s.board tc.cells a = true := by
  unfold hasLegalMove
  simp [List.any_eq_true, bne_iff_ne]

theorem allLegalMoves_ne_nil_iff (s : GameState) (p : PlayerId) :
    allLegalMoves s p ≠ [] ↔
      ∃ e ∈ (getPlayer s p).arsenal, e.2 ≠ 0 ∧
        ∃ tc ∈ getUniqueTransforms e.1,
          ∃ a ∈ anchorsFor s.board tc.cells,
            isLegalPlacement s.board tc.cells a = true := by
  unfold allLegalMoves
  rw [ne_eq, List.eq_nil_iff_forall_not_mem]
  push_neg
  constructor
  · rintro ⟨m, hm⟩
    rw [List.mem_flatMap] at hm
    obtain ⟨e, he, hme⟩ := hm
    refine ⟨e, he, ?_⟩
    by_cases h0 : e.2 == 0
    · simp [h0] at hme
    · rw [if_neg h0, List.mem_flatMap] at hme
      obtain ⟨tc, htc, hmtc⟩ := hme
      obtain ⟨a, haf, _⟩ := List.mem_map.mp hmtc
      obtain ⟨ha, hleg⟩ := List.mem_filter.mp haf
      exact ⟨by simpa using h0, tc, htc, a, ha, hleg⟩
  · rintro ⟨e, he, h0, tc, htc, a, ha, hleg⟩
    refine ⟨createMove p e.1 tc.transform a, ?_⟩
    rw [List.mem_flatMap]
    refine ⟨e, he, ?_⟩
    rw [if_neg (by simpa using h0), List.mem_flatMap]
    exact ⟨tc, htc, List.mem_map_of_mem _ (List.mem_filter.mpr ⟨ha, hleg⟩)⟩

/-- C10: for every state, player and limit ≥ 1, the short-circuiting
`hasLegalMove` returns true exactly when `enumerateLegalMoves` returns a
non-empty list. -/
theorem C10_hasLegalMove_iff_enumerate_nonempty (s : GameState) (p : PlayerId)
    (limit : Nat) (h : 1 ≤ limit) :
    hasLegalMove s p = true ↔ enumerateLegalMoves s p limit ≠ [] := by
  rw [enumerateLegalMoves_eq_take, hasLegalMove_iff_exists,
    ← allLegalMoves_ne_nil_iff]
  simp only [ne_eq, List.take_eq_nil_iff, not_or]
  constructor
  · intro hne
    exact ⟨by omega, hne⟩
  · intro ⟨_, hne⟩
    exact hne

/-- Witness for C10 at the concrete placement state with limit 1. -/
theorem C10_witness :
    1 ≤ 1 ∧ (hasLegalMove examplePlacementState .P1 = true ↔
      enumerateLegalMoves examplePlacementState .P1 1 ≠ []) :=
  ⟨by decide, C10_hasLegalMove_iff_enumerate_nonempty _ _ 1 (by decide)⟩

/-! ### C1: overlap resolution is the greedy priority-ordered selection -/

theorem patternLe_total (a b : Pattern) : (patternLe a b || patternLe b a) = true := by
  simp only [patternLe, Bool.or_eq_true, Bool.and_eq_true, beq_iff_eq,
    decide_eq_true_eq]
  rcases lt_trichotomy a.points b.points with h | h | h
  · tauto
  · rcases le_total b.priority a.priority with h2 | h2 <;> tauto
  · tauto

theorem patternLe_trans (a b c : Pattern) (h1 : patternLe a b = true)
    (h2 : patternLe b c = true) : patternLe a c = true := by
  simp only [patternLe, Bool.or_eq_true, Bool.and_eq_true, beq_iff_eq,
    decide_eq_true_eq] at h1 h2 ⊢
  rcases h1 with h1 | ⟨h1, h1p⟩ <;> rcases h2 with h2 | ⟨h2, h2p⟩
  · left; linarith
  · left; rw [← h2]; exact h1
  · left; rw [h1]; exact h2
  · right; exact ⟨h1.trans h2, h2p.trans h1p⟩

theorem insertLe_perm (le : α → α → Bool) (a : α) (l : List α) :
    (insertLe le a l).Perm (a :: l) := by
  induction l with
  | nil => exact List.Perm.refl _
  | cons b bs ih =>
    simp only [insertLe]
    by_cases h : le a b
    · rw [if_pos h]
    · rw [if_neg h]
      exact (ih.cons b).trans (List.Perm.swap a b bs)

theorem sortByLe_perm (le : α → α → Bool) (l : List α) :
    (sortByLe le l).Perm l := by
  induction l with
  | nil => exact List.Perm.refl _
  | cons a as ih =>
    simp only [sortByLe]
    exact (insertLe_perm le a (sortByLe le as)).trans (ih.cons a)

theorem pairwise_insertLe (le : α → α → Bool)
    (htotal : ∀ a b, (le a b || le b a) = true)
    (htrans : ∀ a b c, le a b = true → le b c = true → le a c = true)
    (a : α) (l : List α) (h : List.Pairwise (fun x y => le x y = true) l) :
    List.Pairwise (fun x y => le x y = true) (insertLe le a l) := by
  induction l with
  | nil => exact List.Pairwise.cons (by simp) List.Pairwise.nil
  | cons b bs ih =>
    simp only [insertLe]
    rcases h with - | ⟨hb, hbs⟩
    by_cases hab : le a b
    · rw [if_pos hab]
      refine List.Pairwise.cons ?_ (List.Pairwise.cons hb hbs)
      intro x hx
      rcases List.mem_cons.mp hx with rfl | hx
      · exact hab
      · exact htrans a b x hab (hb x hx)
    · rw [if_neg hab]
      have hba : le b a = true := by
        have := htotal a b
        simp only [Bool.or_eq_true] at this
        tauto
      refine List.Pairwise.cons ?_ (ih hbs)
      intro x hx
      rw [(insertLe_perm le a bs).mem_iff] at hx
      rcases List.mem_cons.mp hx with rfl | hx
      · exact hba
      · exact hb x hx

theorem pairwise_sortByLe (le : α → α → Bool)
    (htotal : ∀ a b, (le a b || le b a) = true)
    (htrans : ∀ a b c, le a b = true → le b c = true → le a c = true)
    (l : List α) :
    List.Pairwise (fun x y => le x y = true) (sortByLe le l) := by
  induction l with
  | nil => exact List.Pairwise.nil
  | cons a as ih => exact pairwise_insertLe le htotal htrans a (sortByLe le as) ih

theorem cellContains_append (l₁ l₂ : List Cell) (c : Cell) :
    (l₁ ++ l₂).contains c = (l₁.contains c || l₂.contains c) := by
  simp [List.contains_eq_any_beq, List.any_append]

theorem greedyGo_eq_specGreedySelect :
    ∀ (rest : List Pattern) (used : List Cell) (acc : List Pattern),
      (∀ c : Cell, used.contains c = acc.any (fun q => q.cells.contains c)) →
      greedyGo rest used acc = specGreedySelect acc rest := by
  intro rest
  induction rest with
  | nil => intro used acc _; rfl
  | cons p ps ih =>
    intro used acc hinv
    simp only [greedyGo, specGreedySelect]
    have hcond : (p.cells.any (used.contains ·)) =
        (p.cells.any (fun c => acc.any (fun q => q.cells.contains c))) := by
      exact congrArg p.cells.any (funext hinv)
    rw [hcond]
    by_cases h : (p.cells.any (fun c => acc.any (fun q => q.cells.contains c))) = true
    · rw [if_pos h, if_pos h]
      exact ih used acc hinv
    · rw [if_neg h, if_neg h]
      refine ih (used ++ p.cells) (acc ++ [p]) ?_
      intro c
      simp only [cellContains_append, hinv c, List.any_append, List.any_cons,
        List.any_nil, Bool.or_false]

theorem greedyGo_pairwise_disjoint :
    ∀ (rest : List Pattern) (used : List Cell) (acc : List Pattern),
      (∀ q ∈ acc, ∀ c ∈ q.cells, used.contains c = true) →
      List.Pairwise (fun p q => ∀ c ∈ p.cells, c ∉ q.cells) acc →
      List.Pairwise (fun p q => ∀ c ∈ p.cells, c ∉ q.cells) (greedyGo rest used acc) := by
  intro rest
  induction rest with
  | nil => intro used acc _ hpair; exact hpair
  | cons p ps ih =>
    intro used acc hsub hpair
    simp only [greedyGo]
    by_cases h : (p.cells.any (used.contains ·)) = true
    · rw [if_pos h]
      exact ih used acc hsub hpair
    · rw [if_neg h]
      have hfree : ∀ c ∈ p.cells, used.contains c ≠ true := by
        intro c hc hcon
        exact h (List.any_eq_true.mpr ⟨c, hc, hcon⟩)
      refine ih (used ++ p.cells) (acc ++ [p]) ?_ ?_
      · intro q hq c hc
        rw [cellContains_append, Bool.or_eq_true]
        rcases List.mem_append.mp hq with hq | hq
        · exact Or.inl (hsub q hq c hc)
        · rcases List.mem_singleton.mp hq with rfl
          exact Or.inr (List.elem_eq_true_of_mem hc)
      · rw [List.pairwise_append]
        refine ⟨hpair, List.pairwise_singleton _ _, ?_⟩
        intro q hq p' hp'
        rcases List.mem_singleton.mp hp' with rfl
        intro c hcq hcp
        exact hfree c hcp (hsub q hq c hcq)

/-- C1: `resolveOverlappingPatterns` equals the claim's greedy selection
over the candidates sorted by points descending then priority descending
(the sort is a sorted permutation under that order); consequently no two
returned patterns share any cell, and rejected patterns are absent (hence
contribute no points). -/
theorem C1_resolveOverlappingPatterns_greedy (patterns : List Pattern) :
    resolveOverlappingPatterns patterns =
      specGreedySelect [] (sortByLe patternLe patterns) ∧
    (sortByLe patternLe patterns).Perm patterns ∧
    List.Pairwise (fun a b => patternLe a b = true) (sortByLe patternLe patterns) ∧
    List.Pairwise (fun p q => ∀ c ∈ p.cells, c ∉ q.cells)
      (resolveOverlappingPatterns patterns) := by
  refine ⟨?_, sortByLe_perm _ _,
    pairwise_sortByLe _ patternLe_total patternLe_trans _, ?_⟩
  · unfold resolveOverlappingPatterns
    by_cases h : patterns = []
    · subst h; rfl
    · rw [if_neg h]
      exact greedyGo_eq_specGreedySelect _ [] [] (fun c => rfl)
  · unfold resolveOverlappingPatterns
    by_cases h : patterns = []
    · subst h; simp
    · rw [if_neg h]
      refine greedyGo_pairwise_disjoint _ [] [] ?_ List.Pairwise.nil
      intro q hq
      exact absurd hq (List.not_mem_nil q)

/-! ### C7: rejected actions fail atomically, exactly on their
preconditions -/

theorem isInBounds_congr (b₁ b₂ : Board) (x y : Int) (hr : b₁.rows = b₂.rows)
    (hc : b₁.cols = b₂.cols) : isInBounds b₁ x y = isInBounds b₂ x y := by
  simp [isInBounds, hr, hc]

theorem setCell_ok (b : Board) (x y v : Int) (h : isInBounds b x y = true) :
    ∃ b', setCell b x y v = .ok b' ∧ b'.rows = b.rows ∧ b'.cols = b.cols := by
  unfold setCell
  rw [if_neg (by simp [h])]
  exact ⟨_, rfl, rfl, rfl⟩

theorem placeLoop_ok (b : Board) (pid : Int) :
    ∀ (cells : List Cell) (nb : Board), nb.rows = b.rows → nb.cols = b.cols →
      (∀ c ∈ cells, isInBounds b c.1 c.2 = true ∧ gridAt b c.1 c.2 = 0) →
      ∃ b', placeLoop b pid cells nb = .ok b' := by
  intro cells
  induction cells with
  | nil => intro nb _ _ _; exact ⟨nb, rfl⟩
  | cons c rest ih =>
    intro nb hr hc hcells
    obtain ⟨hin, hempty⟩ := hcells c (List.mem_cons_self c rest)
    have hinNb : isInBounds nb c.1 c.2 = true := by
      rw [isInBounds_congr nb b c.1 c.2 hr hc]; exact hin
    obtain ⟨nb', hset, hr', hc'⟩ := setCell_ok nb c.1 c.2 pid hinNb
    simp only [placeLoop, hin, hempty]
    rw [if_neg (by simp), if_neg (by simp), hset]
    exact ih nb' (hr'.trans hr) (hc'.trans hc)
      (fun d hd => hcells d (List.mem_cons_of_mem c hd))

theorem isValidMove_cells (s : GameState) (move : Move)
    (h : isValidMove s move = true) :
    ∀ c ∈ move.absCells, isInBounds s.board c.1 c.2 = true ∧
      gridAt s.board c.1 c.2 = 0 := by
  simp only [isValidMove] at h
  split_ifs at h with h1 h2
  · intro c hc
    rw [not_not] at h2
    rw [h2] at hc
    unfold calculateAbsCells at hc
    obtain ⟨d, hd, rfl⟩ := List.mem_map.mp hc
    unfold isLegalPlacement at h
    have := List.all_eq_true.mp h d hd
    simp only [Bool.and_eq_true, beq_iff_eq] at this
    exact this

theorem commitMove_ok_iff (s : GameState) (m : Move) :
    (∃ s', commitMove s m = .ok s') ↔ isValidMove s m = true := by
  constructor
  · rintro ⟨s', hs'⟩
    by_contra hv
    unfold commitMove at hs'
    rw [if_pos (by simpa using hv)] at hs'
    exact Except.noConfusion hs'
  · intro hv
    unfold commitMove
    rw [if_neg (by simp [hv])]
    obtain ⟨b', hb'⟩ := placeLoop_ok s.board (playerIdToInt m.player) m.absCells
      s.board rfl rfl (isValidMove_cells s m hv)
    unfold placePieceBoard
    rw [hb']
    exact ⟨_, rfl⟩

/-- C7: each of the three mutating actions fails (returns an error,
exposing no successor state — the source throws before mutating anything,
its updates living only on a clone of the input) exactly when its
documented preconditions fail: wrong phase, wrong turn, invalid purchase,
or invalid move. -/
theorem C7_rejected_actions_atomic (s : GameState) (p : PlayerId)
    (pc : PieceId) (m : Move) (t : Int) :
    ((∃ e, draftBuy s p pc t = .error e) ↔
      (s.phase ≠ .DRAFT ∨ s.currentPlayer ≠ p ∨ canBuy s p pc = false)) ∧
    ((∃ e, draftPass s p t = .error e) ↔
      (s.phase ≠ .DRAFT ∨ s.currentPlayer ≠ p)) ∧
    ((∃ e, placePiece s m t = .error e) ↔
      (s.phase ≠ .PLACEMENT ∨ s.currentPlayer ≠ m.player ∨
        isValidMove s m = false)) := by
  refine ⟨?_, ?_, ?_⟩
  · unfold draftBuy
    by_cases h1 : s.phase = .DRAFT
    · by_cases h2 : s.currentPlayer = p
      · rw [if_neg (by simp [h1]), if_neg (by simp [h2])]
        by_cases h3 : canBuy s p pc = true
        · unfold buyPiece
          rw [if_neg (by simp [h3])]
          simp [h1, h2, h3]
        · unfold buyPiece
          rw [if_pos (by simpa using h3)]
          simp [h1, h2, h3]
      · rw [if_neg (by simp [h1]), if_pos (by simp [h2])]
        simp [h2]
    · rw [if_pos (by simp [h1])]
      simp [h1]
  · unfold draftPass
    by_cases h1 : s.phase = .DRAFT
    · by_cases h2 : s.currentPlayer = p
      · rw [if_neg (by simp [h1]), if_neg (by simp [h2])]
        simp [h1, h2]
      · rw [if_neg (by simp [h1]), if_pos (by simp [h2])]
        simp [h2]
    · rw [if_pos (by simp [h1])]
      simp [h1]
  · unfold placePiece
    by_cases h1 : s.phase = .PLACEMENT
    · by_cases h2 : s.currentPlayer = m.player
      · rw [if_neg (by simp [h1]), if_neg (by simp [h2])]
        by_cases h3 : isValidMove s m = true
        · obtain ⟨s', hs'⟩ := (commitMove_ok_iff s m).mpr h3
          rw [hs']
          simp [h1, h2, h3]
        · have herr : commitMove s m = .error "Invalid move" := by
            unfold commitMove
            rw [if_pos (by simpa using h3)]
          rw [herr]
          simp [h1, h2]
          simpa using h3
      · rw [if_neg (by simp [h1]), if_pos (by simp [h2])]
        simp [h2]
    · rw [if_pos (by simp [h1])]
      simp [h1]

/-! ### C4: determinism relative to the clock -/

section CoreCongruence

variable {s₁ s₂ : GameState}

theorem core_phase (h : core s₁ = core s₂) : s₁.phase = s₂.phase :=
  congrArg Core.phase h

theorem core_board (h : core s₁ = core s₂) : s₁.board = s₂.board :=
  congrArg Core.board h

theorem core_player1 (h : core s₁ = core s₂) : s₁.player1 = s₂.player1 :=
  congrArg Core.player1 h

theorem core_player2 (h : core s₁ = core s₂) : s₁.player2 = s₂.player2 :=
  congrArg Core.player2 h

theorem core_stock (h : core s₁ = core s₂) : s₁.stock = s₂.stock :=
  congrArg Core.stock h

theorem core_currentPlayer (h : core s₁ = core s₂) :
    s₁.currentPlayer = s₂.currentPlayer :=
  congrArg Core.currentPlayer h

theorem core_draftState (h : core s₁ = core s₂) : s₁.draftState = s₂.draftState :=
  congrArg Core.draftState h

theorem core_p1Score (h : core s₁ = core s₂) :
    s₁.scoring.player1Score = s₂.scoring.player1Score :=
  congrArg Core.player1Score h

theorem core_p2Score (h : core s₁ = core s₂) :
    s₁.scoring.player2Score = s₂.scoring.player2Score :=
  congrArg Core.player2Score h

theorem core_moves (h : core s₁ = core s₂) :
    s₁.history.map HistoryEntry.move = s₂.history.map HistoryEntry.move :=
  congrArg Core.moves h

theorem core_winner (h : core s₁ = core s₂) : s₁.winner = s₂.winner :=
  congrArg Core.winner h

theorem core_endReason (h : core s₁ = core s₂) : s₁.endReason = s₂.endReason :=
  congrArg Core.endReason h

theorem core_finalScores (h : core s₁ = core s₂) :
    s₁.finalScores = s₂.finalScores :=
  congrArg Core.finalScores h

theorem getPlayer_congr (h : core s₁ = core s₂) :
    ∀ p, getPlayer s₁ p = getPlayer s₂ p := by
  intro p
  cases p
  · exact core_player1 h
  · exact core_player2 h

theorem hasLegalMove_congr (h : core s₁ = core s₂) :
    ∀ p, hasLegalMove s₁ p = hasLegalMove s₂ p := by
  intro p
  simp only [hasLegalMove, core_board h, getPlayer_congr h]

theorem isValidMove_congr (h : core s₁ = core s₂) (m : Move) :
    isValidMove s₁ m = isValidMove s₂ m := by
  simp only [isValidMove, core_board h, getPlayer_congr h]

theorem canBuy_congr (h : core s₁ = core s₂) (p : PlayerId) (pc : PieceId) :
    canBuy s₁ p pc = canBuy s₂ p pc := by
  simp only [canBuy, core_stock h, getPlayer_congr h]

theorem isDraftOver_congr (h : core s₁ = core s₂) :
    isDraftOver s₁ = isDraftOver s₂ := by
  simp only [isDraftOver, core_draftState h, core_stock h, getPlayer_congr h]

theorem switchPlayer_core (h : core s₁ = core s₂) :
    core (switchPlayer s₁) = core (switchPlayer s₂) := by
  simp only [switchPlayer, core]
  congr 1 <;> first
    | exact core_phase h | exact core_board h | exact core_player1 h
    | exact core_player2 h | exact core_stock h
    | exact congrArg getOpponent (core_currentPlayer h)
    | exact core_draftState h | exact core_p1Score h | exact core_p2Score h
    | exact core_moves h | exact core_winner h | exact core_endReason h
    | exact core_finalScores h
    | rfl

theorem clearExpiredHighlights_core (s : GameState) (t : Int) :
    core (clearExpiredHighlights s t) = core s := by
  unfold clearExpiredHighlights
  cases hhl : s.scoring.highlightedPattern with
  | none => rfl
  | some hl =>
    by_cases hex : hl.expiresAt ≤ t
    · simp [hex, core]
    · simp [hex, core]

theorem checkGameEnd_congr (h : core s₁ = core s₂) :
    checkGameEnd s₁ hasLegalMove = checkGameEnd s₂ hasLegalMove := by
  unfold checkGameEnd
  rw [hasLegalMove_congr h .P1, hasLegalMove_congr h .P2, core_p1Score h,
    core_p2Score h, core_player1 h, core_player2 h]

theorem endGameWithScoring_core (h : core s₁ = core s₂) :
    core (endGameWithScoring s₁) = core (endGameWithScoring s₂) := by
  simp only [endGameWithScoring]
  rw [checkGameEnd_congr h]
  simp only [core]
  congr 1 <;> first
    | exact core_phase h | exact core_board h | exact core_player1 h
    | exact core_player2 h | exact core_stock h
    | exact core_currentPlayer h
    | exact core_draftState h | exact core_p1Score h | exact core_p2Score h
    | exact core_moves h | exact core_winner h | exact core_endReason h
    | exact core_finalScores h
    | rfl

theorem startTurn_core (h : core s₁ = core s₂) (t₁ t₂ : Int) :
    core (startTurn s₁ t₁) = core (startTurn s₂ t₂) := by
  simp only [startTurn]
  have hph := core_phase h
  by_cases hp : s₁.phase = Phase.PLACEMENT
  · have hp₂ : s₂.phase = Phase.PLACEMENT := hph ▸ hp
    rw [if_neg (show ¬ s₁.phase ≠ Phase.PLACEMENT by simp [hp]),
        if_neg (show ¬ s₂.phase ≠ Phase.PLACEMENT by simp [hp₂])]
    have h' : core (clearExpiredHighlights s₁ t₁) =
        core (clearExpiredHighlights s₂ t₂) :=
      (clearExpiredHighlights_core s₁ t₁).trans
        (h.trans (clearExpiredHighlights_core s₂ t₂).symm)
    have hcur := core_currentPlayer h'
    have hm : hasLegalMove (clearExpiredHighlights s₁ t₁)
        (clearExpiredHighlights s₁ t₁).currentPlayer =
        hasLegalMove (clearExpiredHighlights s₂ t₂)
          (clearExpiredHighlights s₂ t₂).currentPlayer := by
      rw [← hcur]
      exact hasLegalMove_congr h' _
    have ho : hasLegalMove (clearExpiredHighlights s₁ t₁)
        (getOpponent (clearExpiredHighlights s₁ t₁).currentPlayer) =
        hasLegalMove (clearExpiredHighlights s₂ t₂)
          (getOpponent (clearExpiredHighlights s₂ t₂).currentPlayer) := by
      rw [← hcur]
      exact hasLegalMove_congr h' _
    by_cases hm1 : hasLegalMove (clearExpiredHighlights s₁ t₁)
        (clearExpiredHighlights s₁ t₁).currentPlayer = true
    · have hm2 : hasLegalMove (clearExpiredHighlights s₂ t₂)
          (clearExpiredHighlights s₂ t₂).currentPlayer = true := by
        rw [← hm]; exact hm1
      rw [if_pos hm1, if_pos hm2]
      exact h'
    · have hm2 : ¬ hasLegalMove (clearExpiredHighlights s₂ t₂)
          (clearExpiredHighlights s₂ t₂).currentPlayer = true := by
        rw [← hm]; exact hm1
      rw [if_neg hm1, if_neg hm2]
      by_cases ho1 : hasLegalMove (clearExpiredHighlights s₁ t₁)
          (getOpponent (clearExpiredHighlights s₁ t₁).currentPlayer) = true
      · have ho2 : hasLegalMove (clearExpiredHighlights s₂ t₂)
            (getOpponent (clearExpiredHighlights s₂ t₂).currentPlayer) = true := by
          rw [← ho]; exact ho1
        rw [if_pos ho1, if_pos ho2]
        exact switchPlayer_core h'
      · have ho2 : ¬ hasLegalMove (clearExpiredHighlights s₂ t₂)
            (getOpponent (clearExpiredHighlights s₂ t₂).currentPlayer) = true := by
          rw [← ho]; exact ho1
        rw [if_neg ho1, if_neg ho2]
        exact endGameWithScoring_core h'
  · have hp₂ : ¬ s₂.phase = Phase.PLACEMENT := by rw [← hph]; exact hp
    rw [if_pos hp, if_pos hp₂]
    exact h

theorem transitionToPlacement_core (h : core s₁ = core s₂) (t₁ t₂ : Int) :
    core (transitionToPlacement s₁ t₁) = core (transitionToPlacement s₂ t₂) := by
  simp only [transitionToPlacement]
  apply startTurn_core _ t₁ t₂
  simp only [core]
  congr 1 <;> first
    | exact core_board h | exact core_player1 h | exact core_player2 h
    | exact core_stock h | exact core_draftState h | exact core_p1Score h
    | exact core_p2Score h | exact core_moves h | exact core_winner h
    | exact core_endReason h | exact core_finalScores h
    | rfl

theorem passDraft_core (h : core s₁ = core s₂) (p : PlayerId) :
    core (passDraft s₁ p) = core (passDraft s₂ p) := by
  simp only [passDraft]
  rw [core_draftState h]
  simp only [core]
  congr 1 <;> first
    | exact core_phase h | exact core_board h | exact core_player1 h
    | exact core_player2 h | exact core_stock h | exact core_currentPlayer h
    | exact core_p1Score h | exact core_p2Score h | exact core_moves h
    | exact core_winner h | exact core_endReason h | exact core_finalScores h
    | rfl

theorem buyPiece_congr (h : core s₁ = core s₂) (p : PlayerId) (pc : PieceId) :
    (buyPiece s₁ p pc = .error "Invalid purchase" ∧
      buyPiece s₂ p pc = .error "Invalid purchase") ∨
    (∃ u₁ u₂, buyPiece s₁ p pc = .ok u₁ ∧ buyPiece s₂ p pc = .ok u₂ ∧
      core u₁ = core u₂) := by
  by_cases hc : canBuy s₁ p pc = true
  · right
    have hc₂ : canBuy s₂ p pc = true := by rw [← canBuy_congr h]; exact hc
    simp only [buyPiece]
    rw [if_neg (not_not_intro hc), if_neg (not_not_intro hc₂)]
    refine ⟨_, _, rfl, rfl, ?_⟩
    cases p <;>
      · simp only [setPlayer, getPlayer, core, core_player1 h, core_player2 h,
          core_stock h]
        congr 1 <;> first
          | exact core_phase h | exact core_board h
          | exact core_currentPlayer h
          | exact core_p1Score h | exact core_p2Score h | exact core_moves h
          | exact core_winner h | exact core_endReason h
          | exact core_finalScores h
          | rfl
  · left
    have hc₂ : ¬ canBuy s₂ p pc = true := by rw [← canBuy_congr h]; exact hc
    simp only [buyPiece]
    rw [if_pos hc, if_pos hc₂]
    exact ⟨rfl, rfl⟩

theorem commitMove_congr (h : core s₁ = core s₂) (m : Move) :
    (commitMove s₁ m = .error "Invalid move" ∧
      commitMove s₂ m = .error "Invalid move") ∨
    (∃ u₁ u₂, commitMove s₁ m = .ok u₁ ∧ commitMove s₂ m = .ok u₂ ∧
      core u₁ = core u₂) := by
  by_cases hv : isValidMove s₁ m = true
  · right
    have hv₂ : isValidMove s₂ m = true := by rw [← isValidMove_congr h]; exact hv
    have hb := core_board h
    simp only [commitMove]
    rw [if_neg (not_not_intro hv), if_neg (not_not_intro hv₂)]
    obtain ⟨b', hb'⟩ := placeLoop_ok s₁.board (playerIdToInt m.player) m.absCells
      s₁.board rfl rfl (isValidMove_cells s₁ m hv)
    have hb₁ : placePieceBoard s₁.board m.absCells (playerIdToInt m.player) = .ok b' := hb'
    have hb₂ : placePieceBoard s₂.board m.absCells (playerIdToInt m.player) = .ok b' := by
      rw [← hb]; exact hb'
    rw [hb₁, hb₂]
    refine ⟨_, _, rfl, rfl, ?_⟩
    cases m.player <;>
      · simp only [setPlayer, getPlayer, core, core_player1 h, core_player2 h]
        congr 1 <;> first
          | exact core_phase h | exact core_stock h
          | exact core_currentPlayer h | exact core_draftState h
          | exact core_p1Score h | exact core_p2Score h
          | (simp only [List.map_append]; rw [core_moves h])
          | exact core_winner h | exact core_endReason h
          | exact core_finalScores h
          | rfl
  · left
    have hv₂ : ¬ isValidMove s₂ m = true := by rw [← isValidMove_congr h]; exact hv
    simp only [commitMove]
    rw [if_pos hv, if_pos hv₂]
    exact ⟨rfl, rfl⟩

theorem awardPoints_congr (h : core s₁ = core s₂) (p : PlayerId)
    (cells : List Cell) (mid₁ mid₂ : String) (t₁ t₂ : Int) :
    core (awardPoints s₁ p cells mid₁ t₁).gameState =
      core (awardPoints s₂ p cells mid₂ t₂).gameState ∧
    (awardPoints s₁ p cells mid₁ t₁).pointsEarned =
      (awardPoints s₂ p cells mid₂ t₂).pointsEarned ∧
    (awardPoints s₁ p cells mid₁ t₁).patterns =
      (awardPoints s₂ p cells mid₂ t₂).patterns := by
  have hb := core_board h
  have hq1 := core_p1Score h
  have hq2 := core_p2Score h
  simp only [awardPoints]
  rw [hb]
  rcases hpat : (calculateNewPoints s₂.board (playerIdToInt p) cells).patterns with
    _ | ⟨p0, rest⟩ <;>
    cases p <;>
      · refine ⟨?_, rfl, rfl⟩
        simp only [core, hq1, hq2]
        congr 1 <;> first
          | exact core_phase h | exact core_player1 h | exact core_player2 h
          | exact core_stock h | exact core_currentPlayer h
          | exact core_draftState h | exact core_moves h
          | exact core_winner h | exact core_endReason h
          | exact core_finalScores h
          | rfl

end CoreCongruence

/-- C4 counterexample: the same PLACEMENT-phase state and the same legal
move, executed at wall-clock instants 0 and 1, produce different output
states (the move id, scoring timestamps and highlight expiry embed the
clock), refuting bit-identical determinism of runs as stated. -/
theorem C4_counterexample_output_embeds_clock :
    placePiece examplePlacementState exampleMoveO4 0 ≠
      placePiece examplePlacementState exampleMoveO4 1 := by
  intro hEq
  have h2 := congrArg (fun r : Except String GameState =>
    r.toOption.map (fun s => s.scoring.lastScoringMove)) hEq
  exact absurd h2 (by decide)

/-- C4 amended: the engine is deterministic relative to the clock: on
states agreeing in every rules-relevant (clock-independent) field, each
action — buy, pass, place — run at ARBITRARY clock instants produces
outputs agreeing in every rules-relevant field (phase, board, players,
stock, current player, draft state, scores, move history, winner); only
clock-derived presentation data (move ids, scoring timestamps, highlight
expiry) can differ. Bit-identical equality of whole states fails, see the
counterexample. -/
theorem placeTail_core {v₁ v₂ : GameState} {e₁ e₂ : ℚ} {n₁ n₂ : Nat}
    {m : Move} {id₁ id₂ : String} {t₁ t₂ : Int}
    (hv : core v₁ = core v₂) (he : e₁ = e₂) (hn : n₁ = n₂) :
    core (startTurn (switchPlayer
      { v₁ with history := v₁.history ++ [⟨m, some ⟨id₁, e₁, n₁⟩⟩] }) t₁) =
    core (startTurn (switchPlayer
      { v₂ with history := v₂.history ++ [⟨m, some ⟨id₂, e₂, n₂⟩⟩] }) t₂) := by
  apply startTurn_core _ t₁ t₂
  apply switchPlayer_core
  subst he hn
  simp only [core]
  congr 1 <;> first
    | exact core_phase hv | exact core_board hv | exact core_player1 hv
    | exact core_player2 hv | exact core_stock hv | exact core_currentPlayer hv
    | exact core_draftState hv | exact core_p1Score hv | exact core_p2Score hv
    | (simp only [List.map_append, List.map_cons, List.map_nil]
       rw [core_moves hv])
    | exact core_winner hv | exact core_endReason hv | exact core_finalScores hv
    | rfl

theorem C4_core_determinism (s₁ s₂ : GameState) (h : core s₁ = core s₂) :
    (∀ (p : PlayerId) (pc : PieceId) (t₁ t₂ : Int),
      coreE (draftBuy s₁ p pc t₁) = coreE (draftBuy s₂ p pc t₂)) ∧
    (∀ (p : PlayerId) (t₁ t₂ : Int),
      coreE (draftPass s₁ p t₁) = coreE (draftPass s₂ p t₂)) ∧
    (∀ (m : Move) (t₁ t₂ : Int),
      coreE (placePiece s₁ m t₁) = coreE (placePiece s₂ m t₂)) := by
  have hph := core_phase h
  have hcur := core_currentPlayer h
  refine ⟨?_, ?_, ?_⟩
  · intro p pc t₁ t₂
    simp only [draftBuy]
    by_cases h1 : s₁.phase = Phase.DRAFT
    · have h1b : s₂.phase = Phase.DRAFT := hph ▸ h1
      rw [if_neg (show ¬ s₁.phase ≠ Phase.DRAFT by simp [h1]),
          if_neg (show ¬ s₂.phase ≠ Phase.DRAFT by simp [h1b])]
      by_cases h2 : s₁.currentPlayer = p
      · have h2b : s₂.currentPlayer = p := hcur ▸ h2
        rw [if_neg (show ¬ s₁.currentPlayer ≠ p by simp [h2]),
            if_neg (show ¬ s₂.currentPlayer ≠ p by simp [h2b])]
        rcases buyPiece_congr h p pc with ⟨he₁, he₂⟩ | ⟨u₁, u₂, ho₁, ho₂, hu⟩
        · simp only [he₁, he₂, coreE]
        · simp only [ho₁, ho₂]
          have hsw := switchPlayer_core hu
          have hdo := isDraftOver_congr hsw
          by_cases hd : isDraftOver (switchPlayer u₁) = true
          · have hd₂ : isDraftOver (switchPlayer u₂) = true := by
              rw [← hdo]; exact hd
            rw [if_pos hd, if_pos hd₂]
            simp only [coreE]
            rw [transitionToPlacement_core hsw t₁ t₂]
          · have hd₂ : ¬ isDraftOver (switchPlayer u₂) = true := by
              rw [← hdo]; exact hd
            rw [if_neg hd, if_neg hd₂]
            simp only [coreE]
            rw [hsw]
      · have h2b : s₂.currentPlayer ≠ p := by rw [← hcur]; exact h2
        rw [if_pos h2, if_pos h2b]
      all_goals rfl
    · have h1b : s₂.phase ≠ Phase.DRAFT := by rw [← hph]; exact h1
      rw [if_pos h1, if_pos h1b]
  · intro p t₁ t₂
    simp only [draftPass]
    by_cases h1 : s₁.phase = Phase.DRAFT
    · have h1b : s₂.phase = Phase.DRAFT := hph ▸ h1
      rw [if_neg (show ¬ s₁.phase ≠ Phase.DRAFT by simp [h1]),
          if_neg (show ¬ s₂.phase ≠ Phase.DRAFT by simp [h1b])]
      by_cases h2 : s₁.currentPlayer = p
      · have h2b : s₂.currentPlayer = p := hcur ▸ h2
        rw [if_neg (show ¬ s₁.currentPlayer ≠ p by simp [h2]),
            if_neg (show ¬ s₂.currentPlayer ≠ p by simp [h2b])]
        have hpd := passDraft_core h p
        have hsw := switchPlayer_core hpd
        have hdo := isDraftOver_congr hsw
        by_cases hd : isDraftOver (switchPlayer (passDraft s₁ p)) = true
        · have hd₂ : isDraftOver (switchPlayer (passDraft s₂ p)) = true := by
            rw [← hdo]; exact hd
          rw [if_pos hd, if_pos hd₂]
          simp only [coreE]
          rw [transitionToPlacement_core hsw t₁ t₂]
        · have hd₂ : ¬ isDraftOver (switchPlayer (passDraft s₂ p)) = true := by
            rw [← hdo]; exact hd
          rw [if_neg hd, if_neg hd₂]
          simp only [coreE]
          rw [hsw]
      · have h2b : s₂.currentPlayer ≠ p := by rw [← hcur]; exact h2
        rw [if_pos h2, if_pos h2b]
    · have h1b : s₂.phase ≠ Phase.DRAFT := by rw [← hph]; exact h1
      rw [if_pos h1, if_pos h1b]
  · intro m t₁ t₂
    simp only [placePiece]
    by_cases h1 : s₁.phase = Phase.PLACEMENT
    · have h1b : s₂.phase = Phase.PLACEMENT := hph ▸ h1
      rw [if_neg (show ¬ s₁.phase ≠ Phase.PLACEMENT by simp [h1]),
          if_neg (show ¬ s₂.phase ≠ Phase.PLACEMENT by simp [h1b])]
      by_cases h2 : s₁.currentPlayer = m.player
      · have h2b : s₂.currentPlayer = m.player := hcur ▸ h2
        rw [if_neg (show ¬ s₁.currentPlayer ≠ m.player by simp [h2]),
            if_neg (show ¬ s₂.currentPlayer ≠ m.player by simp [h2b])]
        rcases commitMove_congr h m with ⟨he₁, he₂⟩ | ⟨u₁, u₂, ho₁, ho₂, hu⟩
        · simp only [he₁, he₂, coreE]
        · simp only [ho₁, ho₂]
          obtain ⟨ha1, ha2, ha3⟩ := awardPoints_congr hu m.player m.absCells
            ("move_" ++ toString u₁.history.length ++ "_" ++ toString t₁)
            ("move_" ++ toString u₂.history.length ++ "_" ++ toString t₂) t₁ t₂
          simp only [coreE]
          exact congrArg Except.ok
            (placeTail_core ha1 ha2 (congrArg List.length ha3))
      · have h2b : s₂.currentPlayer ≠ m.player := by rw [← hcur]; exact h2
        rw [if_pos h2, if_pos h2b]
    · have h1b : s₂.phase ≠ Phase.PLACEMENT := by rw [← hph]; exact h1
      rw [if_pos h1, if_pos h1b]

/-- Witness for C4's amended statement: the concrete placement run at two
different clock instants has equal rules-relevant cores. -/
theorem C4_core_determinism_witness :
    core examplePlacementState = core examplePlacementState ∧
    coreE (placePiece examplePlacementState exampleMoveO4 0) =
      coreE (placePiece examplePlacementState exampleMoveO4 5000) :=
  ⟨rfl, (C4_core_determinism _ _ rfl).2.2 exampleMoveO4 0 5000⟩

end SumZero
